import Mathlib

/-!
Verification development for the pycelium hyphal growth model
(python_wd/python_nsm/hyphal_growth_model).

The Python source is shallowly embedded over the real numbers:
Python floats become real numbers, in-place mutation becomes value
passing, object references become stable integer ids resolved in the
owning collection (the pattern the repository's own save/load format
uses via parent_index), and the two process-global random generators
(the numpy generator and the python random generator) become explicit
streams of draw values threaded through every stochastic call.
-/

noncomputable section

namespace Pycelium

open Classical

/-- The two process-global random generators, modelled as explicit
streams: np is the numpy generator (np.random.rand, np.random.uniform,
np.random.laplace, np.random.normal, np.random.choice), py is the
python random generator (random.random).  A unit draw pops the head of
the stream (an exhausted stream yields 0); distribution-shaped draws
are derived from unit draws. -/
structure SimRng where
  np : List ℝ
  py : List ℝ

/-- Pop one value from the numpy stream. -/
def SimRng.popNp : SimRng → ℝ × SimRng
  | ⟨[], py⟩ => (0, ⟨[], py⟩)
  | ⟨u :: rest, py⟩ => (u, ⟨rest, py⟩)

/-- Pop one value from the python-random stream. -/
def SimRng.popPy : SimRng → ℝ × SimRng
  | ⟨np, []⟩ => (0, ⟨np, []⟩)
  | ⟨np, u :: rest⟩ => (u, ⟨np, rest⟩)

/-- Model of np.random.rand(): one unit draw from the numpy stream. -/
def npRand (r : SimRng) : ℝ × SimRng := r.popNp

/-- Model of np.random.uniform(lo, hi): lo + u * (hi - lo) for a unit
draw u. -/
def npUniform (lo hi : ℝ) (r : SimRng) : ℝ × SimRng :=
  let p := r.popNp
  (lo + p.1 * (hi - lo), p.2)

/-- Model of np.random.laplace(0.0, scale) by the Laplace inverse cdf
applied to a unit draw. -/
def npLaplace (scale : ℝ) (r : SimRng) : ℝ × SimRng :=
  let p := r.popNp
  (if p.1 < 1/2 then scale * Real.log (2 * p.1) else -(scale * Real.log (2 - 2 * p.1)), p.2)

/-- Model of random.random(): one unit draw from the python stream. -/
def pyRandom (r : SimRng) : ℝ × SimRng := r.popPy

/-- core/point.py MPoint: a 3D point over float64 coordinates, here
real coordinates.  The in-place mutating methods of the source become
pure functions; the source's copy method is the identity on values. -/
@[ext]
structure MPoint where
  x : ℝ
  y : ℝ
  z : ℝ

namespace MPoint

/-- In-place vector addition (point.py add). -/
def add (a b : MPoint) : MPoint := ⟨a.x + b.x, a.y + b.y, a.z + b.z⟩

/-- In-place vector subtraction (point.py subtract). -/
def subtract (a b : MPoint) : MPoint := ⟨a.x - b.x, a.y - b.y, a.z - b.z⟩

/-- In-place scalar multiplication (point.py scale). -/
def scale (a : MPoint) (factor : ℝ) : MPoint :=
  ⟨a.x * factor, a.y * factor, a.z * factor⟩

/-- Dot product (point.py dot). -/
def dot (a b : MPoint) : ℝ := a.x * b.x + a.y * b.y + a.z * b.z

/-- Cross product (point.py cross). -/
def cross (a b : MPoint) : MPoint :=
  ⟨a.y * b.z - a.z * b.y, a.z * b.x - a.x * b.z, a.x * b.y - a.y * b.x⟩

/-- Euclidean norm of the coordinate vector (np.linalg.norm). -/
def norm (a : MPoint) : ℝ := Real.sqrt (a.x ^ 2 + a.y ^ 2 + a.z ^ 2)

/-- point.py normalise: divide by the norm, leaving the zero vector
unchanged. -/
def normalise (a : MPoint) : MPoint :=
  if a.norm = 0 then a else a.scale a.norm⁻¹

/-- point.py distance_to: Euclidean distance to another point. -/
def distance_to (a b : MPoint) : ℝ := (a.subtract b).norm

/-- The magnitude used by orientator.py on a delta vector.  The source
MPoint class has no magnitude method (calling it would raise an
AttributeError); it is modelled as the Euclidean norm, the evident
intent.  No settled claim depends on this method. -/
def magnitude (a : MPoint) : ℝ := a.norm

/-- point.py rotated_around: Rodrigues rotation of the vector around
the given axis by an angle in degrees.  The source divides by the axis
norm without a zero guard; every call in the repository passes the
unit z axis. -/
def rotated_around (v axis : MPoint) (angle_degrees : ℝ) : MPoint :=
  let θ := angle_degrees * Real.pi / 180
  let k := axis.scale (axis.norm)⁻¹
  ((v.scale (Real.cos θ)).add ((k.cross v).scale (Real.sin θ))).add
    (k.scale ((k.dot v) * (1 - Real.cos θ)))

end MPoint

/-- Lineage color: an rgb triple. -/
abbrev Color : Type := ℝ × ℝ × ℝ

/-- The configuration record, with exactly the fields and the plain
value types that the embedded modules (core/section.py, core/mycel.py,
tropisms/orientator.py, compute/field_aggregator.py) read off the
options object they are passed at run time. -/
structure Options where
  growth_rate : ℝ
  time_step : ℝ
  length_scaled_growth : Bool
  length_growth_coef : ℝ
  volume_constraint : Bool
  x_min : ℝ
  x_max : ℝ
  y_min : ℝ
  y_max : ℝ
  z_min : ℝ
  z_max : ℝ
  direction_memory_blend : ℝ
  max_branches : ℕ
  min_tip_age : ℝ
  min_tip_length : ℝ
  branch_time_window : ℝ
  field_threshold : ℝ
  branch_angle_spread : ℝ
  curvature_branch_bias : ℝ
  leading_branch_prob : ℝ
  rgb_mutations_enabled : Bool
  color_mutation_prob : ℝ
  color_mutation_scale : ℝ
  initial_color : Color
  branch_probability : ℝ
  allow_internal_branching : Bool
  die_if_old : Bool
  max_age : ℝ
  max_length : ℝ
  die_if_too_dense : Bool
  density_threshold : ℝ
  use_nutrient_field : Bool
  nutrient_repulsion : ℝ
  nutrient_attraction : ℝ
  nutrient_radius : ℝ
  neighbour_radius : ℝ
  min_supported_tips : ℕ
  max_supported_tips : ℕ
  autotropism : ℝ
  field_alignment_boost : ℝ
  field_curvature_influence : ℝ
  gravitropism : ℝ
  gravi_angle_start : ℝ
  gravi_angle_end : ℝ
  anisotropy_enabled : Bool
  anisotropy_vector : ℝ × ℝ × ℝ
  anisotropy_strength : ℝ
  random_walk : ℝ

/-- tropisms/sect_field_finder.py SectFieldFinder: a line-segment field
source wrapping a live Section reference.  The reference is modelled by
the wrapped section's stable id, resolved in the owning section
collection at query time (the arena pattern of the repository's own
serialisation format). -/
structure SectSource where
  sect_id : ℕ
  strength : ℝ
  decay : ℝ

/-- compute/field_aggregator.py FieldAggregator: a list of section
field sources (the per-step rebuild in the driver clears the source
list and re-adds every section through add_sections, so all sources are
SectFieldFinders) plus the options reference set by set_options. -/
structure FieldAggregator where
  sources : List SectSource
  options : Option Options

/-- core/section.py Section.  The parent back-reference and the
children list hold section ids; the field_aggregator attribute is None
until set_field_aggregator is called. -/
structure Section where
  id : ℕ
  start : MPoint
  orientation : MPoint
  length : ℝ
  age : ℝ
  is_tip : Bool
  is_dead : Bool
  branches_made : ℕ
  parent : Option ℕ
  children : List ℕ
  end_ : MPoint
  subsegments : List (MPoint × MPoint)
  field_aggregator : Option FieldAggregator
  direction_memory : MPoint
  options : Options
  color : Color

/-- Section.__init__.  The process-global id counter of the source
(itertools.count) is modelled by the caller passing the next fresh id.
The color argument follows the source: a seed (parent None) falls back
to opts.initial_color when no color is given; a branching parent always
passes an explicit color. -/
def Section.create (idv : ℕ) (start orientation : MPoint) (opts : Options)
    (parent : Option ℕ) (color : Option Color) : Section :=
  let orient := orientation.normalise
  { id := idv
    start := start
    orientation := orient
    length := 0
    age := 0
    is_tip := true
    is_dead := false
    branches_made := 0
    parent := parent
    children := []
    end_ := start
    subsegments := [(start, start)]
    field_aggregator := none
    direction_memory := orient
    options := opts
    color := color.getD opts.initial_color }

/-- Clamp one coordinate of the volume constraint check in
Section.grow; the flag records whether the coordinate was out of
bounds. -/
def clampCoord (v lo hi : ℝ) : ℝ × Bool :=
  if v < lo then (lo, true) else if v > hi then (hi, true) else (v, false)

/-- The direction-memory EMA update at the end of Section.grow. -/
def Section.growMemoryUpdate (s : Section) : Section :=
  let α := s.options.direction_memory_blend
  { s with direction_memory :=
      ((s.direction_memory.scale (1 - α)).add (s.orientation.scale α)).normalise }

/-- core/section.py Section.grow(rate, dt): extend an active tip along
its orientation, with optional length-scaled rate, append the new
subsegment, then either clamp-and-deactivate at the volume boundary or
update the direction memory. -/
def Section.grow (s : Section) (rate dt : ℝ) : Section :=
  if ¬ s.is_tip = true ∨ s.is_dead = true then s
  else
    let rate1 := if s.options.length_scaled_growth then
        rate * (1 + s.length * s.options.length_growth_coef) else rate
    let growth_distance := rate1 * dt
    let delta := s.orientation.scale growth_distance
    let prev_end := s.end_
    let newEnd := s.end_.add delta
    let s1 := { s with
      end_ := newEnd
      length := s.length + growth_distance
      age := s.age + dt
      subsegments := s.subsegments ++ [(prev_end, newEnd)] }
    if s.options.volume_constraint then
      let cx := clampCoord newEnd.x s.options.x_min s.options.x_max
      let cy := clampCoord newEnd.y s.options.y_min s.options.y_max
      let cz := clampCoord newEnd.z s.options.z_min s.options.z_max
      if cx.2 = true ∨ cy.2 = true ∨ cz.2 = true then
        let clamped : MPoint := ⟨cx.1, cy.1, cz.1⟩
        { s1 with
          end_ := clamped
          length := s.start.distance_to clamped
          is_tip := false }
      else s1.growMemoryUpdate
    else s1.growMemoryUpdate

/-- core/section.py Section.update(): recompute the length from the
exact start-to-end distance and mark the segment dead when the length
is below 1e-5. -/
def Section.update (s : Section) : Section :=
  let len := s.start.distance_to s.end_
  { s with length := len, is_dead := if len < 1e-5 then true else s.is_dead }

/-- Resolve a section reference (a Python object reference in the
source) by its stable id inside the owning collection. -/
def findSection (ctx : List Section) (i : ℕ) : Option Section :=
  ctx.find? (fun s => s.id == i)

namespace SectSource

/-- sect_field_finder.py _closest_point_on_segment: project the query
point onto the wrapped section's start-end segment, clamping the
parameter to the unit interval, with the degenerate zero-length segment
mapped to the start point. -/
def closest_point (sec : Section) (p : MPoint) : MPoint :=
  let a := sec.start
  let b := sec.end_
  let ab := b.subtract a
  let ap := p.subtract a
  let denom := ab.dot ab
  let t := if denom = 0 then 0 else min (max ((ap.dot ab) / denom) 0) 1
  a.add (ab.scale t)

/-- sect_field_finder.py find_field: inverse-decay field of the
distance to the closest point on the wrapped segment. -/
def find_field (src : SectSource) (sec : Section) (p : MPoint) : ℝ :=
  let closest := closest_point sec p
  let d := p.distance_to closest
  src.strength / (1 + src.decay * d)

/-- sect_field_finder.py gradient: zero exactly on the segment,
otherwise the direction away from the closest point scaled by the decay
slope and then normalised. -/
def gradient (src : SectSource) (sec : Section) (p : MPoint) : MPoint :=
  let closest := closest_point sec p
  let direction := p.subtract closest
  let d := direction.norm
  if d = 0 then ⟨0, 0, 0⟩
  else (direction.scale (src.strength * src.decay / (1 + src.decay * d) ^ 2)).normalise

end SectSource

namespace FieldAggregator

/-- Whether the neighbour-radius culling of compute_field skips this
source: requires the aggregator to have options with a positive
neighbour radius and the query point to be farther than that radius
from the wrapped section's end. -/
def culls (agg : FieldAggregator) (point : MPoint) (sec : Section) : Prop :=
  match agg.options with
  | some o => 0 < o.neighbour_radius ∧ o.neighbour_radius < point.distance_to sec.end_
  | none => False

/-- One source's contribution step inside compute_field's loop. -/
def fieldStep (agg : FieldAggregator) (ctx : List Section) (point : MPoint)
    (exclude_ids : List ℕ) (acc : ℝ × MPoint) (src : SectSource) : ℝ × MPoint :=
  if src.sect_id ∈ exclude_ids then acc
  else
    match findSection ctx src.sect_id with
    | none => acc
    | some sec =>
      if agg.culls point sec then acc
      else (acc.1 + src.find_field sec point, acc.2.add (src.gradient sec point))

/-- compute/field_aggregator.py compute_field(point, exclude_ids): sum
the scalar contributions and the gradient vectors of all non-excluded,
non-culled sources, returning the scalar total and the normalised
gradient total. -/
def compute_field (agg : FieldAggregator) (ctx : List Section) (point : MPoint)
    (exclude_ids : List ℕ) : ℝ × MPoint :=
  let acc := agg.sources.foldl (fieldStep agg ctx point exclude_ids) (0, ⟨0, 0, 0⟩)
  (acc.1, acc.2.normalise)

/-- compute/field_aggregator.py compute_field_curvature, generalised by
the exclusion list passed to the inner compute_field calls: the source
itself always passes the empty default, and the generalisation is used
only to express the self-excluded computation of claim C5. -/
def curvatureWith (agg : FieldAggregator) (ctx : List Section) (point : MPoint)
    (ε : ℝ) (exclude_ids : List ℕ) : ℝ :=
  let base := (agg.compute_field ctx point exclude_ids).1
  let offsets : List MPoint :=
    [⟨ε, 0, 0⟩, ⟨-ε, 0, 0⟩, ⟨0, ε, 0⟩, ⟨0, -ε, 0⟩, ⟨0, 0, ε⟩, ⟨0, 0, -ε⟩]
  let laplace_sum := offsets.foldl
    (fun acc off => acc + ((agg.compute_field ctx (point.add off) exclude_ids).1 - base)) 0
  laplace_sum / ε ^ 2

/-- compute/field_aggregator.py compute_field_curvature(point, epsilon):
six-point finite-difference Laplacian of the scalar field. -/
def compute_field_curvature (agg : FieldAggregator) (ctx : List Section)
    (point : MPoint) (ε : ℝ) : ℝ :=
  curvatureWith agg ctx point ε []

end FieldAggregator

/-- The environmental-field gate of maybe_branch: present only when a
field aggregator is attached; blocks when the self-excluded field
strength at the tip end reaches the threshold. -/
def Section.fieldGateBlocks (s : Section) (ctx : List Section) : Prop :=
  match s.field_aggregator with
  | some agg => s.options.field_threshold ≤ (agg.compute_field ctx s.end_ [s.id]).1
  | none => False

/-- The curvature-bias blend of maybe_branch, applied when the bias is
positive and at least three subsegments are recorded: estimate a
curvature vector from the last three recorded subsegment points and
blend it into the rotated orientation. -/
def Section.curvatureBlend (s : Section) (rotated : MPoint) : MPoint :=
  let n := s.subsegments.length
  let dflt : MPoint × MPoint := (⟨0, 0, 0⟩, ⟨0, 0, 0⟩)
  let p1 := (s.subsegments.getD (n - 3) dflt).1
  let p2 := (s.subsegments.getD (n - 2) dflt).1
  let p3 := (s.subsegments.getD (n - 1) dflt).2
  let v1 := (p2.subtract p1).normalise
  let v2 := (p3.subtract p2).normalise
  let curve := (v2.subtract v1).normalise
  ((rotated.scale (1 - s.options.curvature_branch_bias)).add
    (curve.scale s.options.curvature_branch_bias)).normalise

/-- The rgb color inheritance of maybe_branch (section.py lines
234-247): when mutations are enabled, draw the python-random gate and,
when it fires, add Laplace noise per channel and clamp to the unit
interval. -/
def Section.branchColor (s : Section) (rng : SimRng) : Color × SimRng :=
  if s.options.rgb_mutations_enabled then
    let pp := pyRandom rng
    if pp.1 < s.options.color_mutation_prob then
      let d1 := npLaplace s.options.color_mutation_scale pp.2
      let d2 := npLaplace s.options.color_mutation_scale d1.2
      let d3 := npLaplace s.options.color_mutation_scale d2.2
      ((min (max (s.color.1 + d1.1) 0) 1,
        min (max (s.color.2.1 + d2.1) 0) 1,
        min (max (s.color.2.2 + d3.1) 0) 1), d3.2)
    else (s.color, pp.2)
  else (s.color, rng)

/-- The candidate branch direction of maybe_branch after the chance
draw succeeded: a rotation of the current orientation around the z axis
by a uniform draw in the spread interval, optionally blended with the
curvature estimate and the directional memory. -/
def Section.branchDirection (s : Section) (angle : ℝ) : MPoint :=
  let axis : MPoint := ⟨0, 0, 1⟩
  let rotated0 := s.orientation.rotated_around axis angle
  let rotated1 :=
    if 0 < s.options.curvature_branch_bias ∧ 3 ≤ s.subsegments.length then
      s.curvatureBlend rotated0
    else rotated0
  if 0 < s.options.direction_memory_blend then
    ((rotated1.scale (1 - s.options.direction_memory_blend)).add
      (s.direction_memory.scale s.options.direction_memory_blend)).normalise
  else rotated1

/-- The success branch of maybe_branch, from the angle draw through the
construction of the child: returns the child, the mutated parent and
the advanced random state. -/
def Section.branchResult (s : Section) (nid : ℕ) (rng1 : SimRng) :
    Section × Section × SimRng :=
  let ua :=
    npUniform (-s.options.branch_angle_spread) s.options.branch_angle_spread rng1
  let rotated2 := s.branchDirection ua.1
  let u3 := npRand ua.2
  let keep_self_leading := u3.1 < s.options.leading_branch_prob
  let child_orientation := if keep_self_leading then rotated2 else s.orientation
  let self_orientation := if keep_self_leading then s.orientation else rotated2
  let cc := s.branchColor u3.2
  let child :=
    { Section.create nid s.end_ child_orientation s.options (some s.id)
        (some cc.1) with
      direction_memory := s.direction_memory
      field_aggregator := s.field_aggregator }
  let s1 := { s with
    orientation := self_orientation
    children := s.children ++ [nid]
    branches_made := s.branches_made + 1 }
  (child, s1, cc.2)

/-- core/section.py Section.maybe_branch(branch_chance, tip_count):
the gated branching decision.  Returns the optional new child, the
(possibly mutated) parent, and the advanced random state.  The ctx
argument is the owning section collection, used to resolve the live
section references held by the field aggregator; nid is the fresh id
the process-global counter would hand to a newly constructed Section.
The tip_count parameter is accepted and ignored exactly as in the
source. -/
def Section.maybe_branch (s : Section) (ctx : List Section) (branch_chance : ℝ)
    (tip_count : ℕ) (nid : ℕ) (rng : SimRng) : Option Section × Section × SimRng :=
  if ¬ s.is_tip = true ∨ s.is_dead = true then (none, s, rng)
  else if s.options.max_branches ≤ s.branches_made then (none, s, rng)
  else if s.age < s.options.min_tip_age ∨ s.length < s.options.min_tip_length then
    (none, s, rng)
  else if s.options.branch_time_window < s.age then (none, s, rng)
  else if s.fieldGateBlocks ctx then (none, s, rng)
  else
    let u1 := npRand rng
    if u1.1 < branch_chance then
      let r := s.branchResult nid u1.2
      (some r.1, r.2.1, r.2.2)
    else (none, s, u1.2)

/-- tropisms/orientator.py Orientator.  The density grid and the
anisotropy grid are external lookup collaborators, modelled by their
query functions (get_gradient_at and get_direction_at). -/
structure Orientator where
  options : Options
  aggregator : Option FieldAggregator
  density_grid : Option (MPoint → MPoint)
  anisotropy_grid : Option (MPoint → MPoint)
  nutrient_sources : List MPoint

namespace Orientator

/-- The gravitropism ramp strength of Orientator.compute: zero below
gravi_angle_start, the full gravitropism value above gravi_angle_end,
linear in between. -/
def gravStrength (opts : Options) (z : ℝ) : ℝ :=
  if z < opts.gravi_angle_start then 0
  else if opts.gravi_angle_end < z then opts.gravitropism
  else ((z - opts.gravi_angle_start) / (opts.gravi_angle_end - opts.gravi_angle_start)) *
    opts.gravitropism

/-- The autotropism and field-alignment block of Orientator.compute
(the aggregator query, the gradient push, the optional alignment boost
and the optional curvature influence), generalised by the exclusion
list handed to the aggregator; the source always passes the empty
default exclusion list. -/
def autotropismStage (o : Orientator) (ctx : List Section) (sec : Section)
    (v : MPoint) (excl : List ℕ) : MPoint :=
  match o.aggregator with
  | none => v
  | some agg =>
    let grad := ((agg.compute_field ctx sec.end_ excl).2).scale o.options.autotropism
    let v1 := v.add grad
    let v2 :=
      if 0 < o.options.field_alignment_boost then
        let grad_unit := grad.normalise
        let d := v1.dot grad_unit
        if 0 < d then v1.add (grad_unit.scale (d * o.options.field_alignment_boost))
        else v1
      else v1
    if 0 < o.options.field_curvature_influence then
      let curvature := agg.curvatureWith ctx sec.end_ 1 excl
      let direction := grad.normalise
      v2.add (direction.scale (curvature * o.options.field_curvature_influence))
    else v2

/-- The density-avoidance block of Orientator.compute. -/
def densityStage (o : Orientator) (sec : Section) (v : MPoint) : MPoint :=
  if o.options.die_if_too_dense then
    match o.density_grid with
    | some grid => v.subtract (grid sec.end_)
    | none => v
  else v

/-- The gravitropism block of Orientator.compute: the gravity vector of
the source points along the negative y axis. -/
def gravitropismStage (opts : Options) (z : ℝ) (v : MPoint) : MPoint :=
  if 0 < opts.gravitropism then
    v.add ((⟨0, -1, 0⟩ : MPoint).scale (gravStrength opts z))
  else v

/-- The nutrient-source block of Orientator.compute. -/
def nutrientStage (o : Orientator) (endp : MPoint) (v : MPoint) : MPoint :=
  o.nutrient_sources.foldl
    (fun acc nutrient =>
      let delta := nutrient.subtract endp
      let dist := delta.magnitude
      if dist < o.options.nutrient_radius then
        let influence := 1 - dist / o.options.nutrient_radius
        let acc1 :=
          if 0 < o.options.nutrient_attraction then
            acc.add ((delta.normalise).scale (o.options.nutrient_attraction * influence))
          else acc
        if 0 < o.options.nutrient_repulsion then
          acc1.subtract ((delta.normalise).scale (o.options.nutrient_repulsion * influence))
        else acc1
      else acc) v

/-- The anisotropy block of Orientator.compute. -/
def anisotropyStage (o : Orientator) (endp : MPoint) (v : MPoint) : MPoint :=
  if o.options.anisotropy_enabled then
    let dir_vec :=
      match o.anisotropy_grid with
      | some grid => grid endp
      | none =>
        (⟨o.options.anisotropy_vector.1, o.options.anisotropy_vector.2.1,
          o.options.anisotropy_vector.2.2⟩ : MPoint).normalise
    v.add (dir_vec.scale o.options.anisotropy_strength)
  else v

/-- The random-walk block of Orientator.compute.  The three
np.random.normal(0, 1) samples are modelled as three raw draws popped
from the numpy stream; only the direction of the normalised sample
vector matters downstream. -/
def randomWalkStage (o : Orientator) (v : MPoint) (rng : SimRng) : MPoint × SimRng :=
  if 0 < o.options.random_walk then
    let p1 := rng.popNp
    let p2 := p1.2.popNp
    let p3 := p2.2.popNp
    (v.add (((⟨p1.1, p2.1, p3.1⟩ : MPoint).normalise).scale o.options.random_walk), p3.2)
  else (v, rng)

/-- The directional-memory blend at the end of Orientator.compute. -/
def memoryStage (o : Orientator) (origOrientation v : MPoint) : MPoint :=
  if 0 < o.options.direction_memory_blend then
    ((origOrientation.scale o.options.direction_memory_blend).add
      (v.scale (1 - o.options.direction_memory_blend))).normalise
  else v

/-- tropisms/orientator.py Orientator.compute(section), generalised by
the exclusion list that every aggregator query on behalf of the section
passes; the source's compute passes the aggregator's empty default. -/
def computeWith (o : Orientator) (ctx : List Section) (sec : Section)
    (rng : SimRng) (excl : List ℕ) : MPoint × SimRng :=
  let v1 := autotropismStage o ctx sec sec.orientation excl
  let v2 := densityStage o sec v1
  let v3 := gravitropismStage o.options sec.end_.z v2
  let v4 := nutrientStage o sec.end_ v3
  let v5 := anisotropyStage o sec.end_ v4
  let vr := randomWalkStage o v5 rng
  let v7 := memoryStage o sec.orientation vr.1
  (v7.normalise, vr.2)

/-- tropisms/orientator.py Orientator.compute(section): the aggregator
queries use the empty default exclusion list of compute_field. -/
def compute (o : Orientator) (ctx : List Section) (sec : Section)
    (rng : SimRng) : MPoint × SimRng :=
  computeWith o ctx sec rng []

/-- The computation claim C5 describes: identical to compute except
that every field aggregation performed on behalf of the section
excludes the section's own source (the spec's words: the orientation
computed with that section's own source excluded from the field
aggregation). -/
def computeSelfExcluded (o : Orientator) (ctx : List Section) (sec : Section)
    (rng : SimRng) : MPoint × SimRng :=
  computeWith o ctx sec rng [sec.id]

end Orientator

/-- Per-tip snapshot record of Mycel.step pass 4. -/
structure TipSnap where
  time : ℝ
  x : ℝ
  y : ℝ
  z : ℝ
  age : ℝ
  length : ℝ

/-- core/mycel.py Mycel: the growth engine state.  The next_id field
models the process-global section id counter. -/
structure Mycel where
  sections : List Section
  options : Options
  time : ℝ
  step_history : List (ℝ × List (ℝ × ℝ × ℝ))
  time_series : List (List TipSnap)
  biomass_history : List ℝ
  next_id : ℕ

namespace Mycel

/-- Mycel.__init__(options). -/
def init (opts : Options) : Mycel :=
  { sections := []
    options := opts
    time := 0
    step_history := []
    time_series := []
    biomass_history := []
    next_id := 0 }

/-- core/mycel.py Mycel.get_tips(): the live, non-dead sections. -/
def getTipsOf (secs : List Section) : List Section :=
  secs.filter (fun s => s.is_tip && !s.is_dead)

/-- core/mycel.py Mycel.get_tips(). -/
def get_tips (m : Mycel) : List Section := getTipsOf m.sections

/-- core/mycel.py Mycel.seed(location, orientation, color). -/
def seed (m : Mycel) (location orientation : MPoint) (color : Option Color) : Mycel :=
  let root := Section.create m.next_id location orientation m.options none color
  { m with sections := m.sections ++ [root], next_id := m.next_id + 1 }

/-- The per-tip death decision of Mycel.step pass 2, evaluated in the
source's order with early exit: age limit, length limit, density kill,
nutrient-repulsion kill, isolation kill.  The last three run only when
the section carries a field aggregator. -/
def decideDeath (opts : Options) (secs : List Section) (sec : Section) : Prop :=
  if opts.die_if_old = true ∧ opts.max_age < sec.age then True
  else if opts.max_length < sec.length then True
  else if (match sec.field_aggregator with
    | some agg => opts.die_if_too_dense = true ∧
        opts.density_threshold < (agg.compute_field secs sec.end_ []).1
    | none => False) then True
  else if (match sec.field_aggregator with
    | some agg => opts.use_nutrient_field = true ∧
        (agg.compute_field secs sec.end_ []).1 < -|opts.nutrient_repulsion|
    | none => False) then True
  else
    match sec.field_aggregator with
    | none => False
    | some _ =>
      ((getTipsOf secs).filter (fun other =>
        other.id ≠ sec.id ∧ sec.end_.distance_to other.end_ ≤ opts.neighbour_radius)).length
        < opts.min_supported_tips

/-- One iteration of the destructor loop of Mycel.step pass 2: only
live tips are examined, and the neighbour counts read the current state
of the collection, reflecting deaths already applied earlier in the
same pass. -/
def destructorStep (opts : Options) (secs : List Section) (i : ℕ) : List Section :=
  match secs.get? i with
  | none => secs
  | some sec =>
    if ¬ sec.is_tip = true ∨ sec.is_dead = true then secs
    else if decideDeath opts secs sec then secs.set i { sec with is_dead := true }
    else secs

/-- Mycel.step pass 2: the destructor loop over the whole collection. -/
def destructorPass (opts : Options) (secs : List Section) : List Section :=
  (List.range secs.length).foldl (destructorStep opts) secs

/-- One iteration of the branching loop of Mycel.step pass 3.  The
accumulator carries the current collection (parents are mutated in
place), the queued new children, the id counter and the random state. -/
def branchStep (opts : Options) (tip_count : ℕ)
    (st : List Section × List Section × ℕ × SimRng) (i : ℕ) :
    List Section × List Section × ℕ × SimRng :=
  let secs := st.1
  let news := st.2.1
  let nid := st.2.2.1
  let rng := st.2.2.2
  match secs.get? i with
  | none => st
  | some sec =>
    if sec.is_dead = true then st
    else if sec.is_tip = true ∨ opts.allow_internal_branching = true then
      let r := sec.maybe_branch secs opts.branch_probability tip_count nid rng
      match r.1 with
      | some child => (secs.set i r.2.1, news ++ [child], nid + 1, r.2.2)
      | none => (secs.set i r.2.1, news, nid, r.2.2)
    else st

/-- Mycel.step pass 3: the branching loop over the whole collection. -/
def branchPass (opts : Options) (tip_count : ℕ) (secs : List Section) (nid : ℕ)
    (rng : SimRng) : List Section × List Section × ℕ × SimRng :=
  (List.range secs.length).foldl (branchStep opts tip_count) (secs, [], nid, rng)

/-- The selection of np.random.choice(active_tips, size=excess,
replace=False) in Mycel.step pass 5, modelled as drawing one pool index
per victim from the numpy stream without replacement; the returned list
holds the chosen section ids.  Only the facts that the selection is a
function of the random state and that it picks from the pool matter to
the settled claims. -/
def chooseDistinct : List ℕ → ℕ → SimRng → List ℕ × SimRng
  | _, 0, rng => ([], rng)
  | pool, k + 1, rng =>
    let p := rng.popNp
    let j := min (Int.toNat ⌊p.1 * (pool.length : ℝ)⌋) (pool.length - 1)
    let chosen := pool.getD j 0
    let rest := chooseDistinct (pool.eraseIdx j) k p.2
    (chosen :: rest.1, rest.2)

/-- Mycel.step pass 5: when the live tips exceed max_supported_tips,
randomly select the excess and mark them dead. -/
def prunePass (opts : Options) (secs : List Section) (rng : SimRng) :
    List Section × SimRng :=
  if 0 < opts.max_supported_tips then
    let active := getTipsOf secs
    if opts.max_supported_tips < active.length then
      let excess := active.length - opts.max_supported_tips
      let ch := chooseDistinct (active.map (fun t => t.id)) excess rng
      (secs.map (fun s => if s.id ∈ ch.1 then { s with is_dead := true } else s), ch.2)
    else (secs, rng)
  else (secs, rng)

/-- The total living biomass of Mycel.step pass 6: the sum of the
lengths of the non-dead sections. -/
def biomassOf (secs : List Section) : ℝ :=
  (secs.filter (fun s => !s.is_dead)).foldl (fun acc s => acc + s.length) 0

/-- core/mycel.py Mycel.step(): one full simulation step in the fixed
order of the source — grow and update every non-dead section, run the
destructor checks, attempt branching and append the new children,
record the tip snapshot, advance time, prune excess tips, and record
the step history and the living biomass. -/
def step (m : Mycel) (rng : SimRng) : Mycel × SimRng :=
  let opts := m.options
  let tip_count := (get_tips m).length
  let sections1 := m.sections.map (fun s =>
    if s.is_dead = true then s else ((s.grow opts.growth_rate opts.time_step).update))
  let sections2 := destructorPass opts sections1
  let br := branchPass opts tip_count sections2 m.next_id rng
  let sections3 := br.1 ++ br.2.1
  let snapshot := (getTipsOf sections3).map (fun tip =>
    { time := m.time, x := tip.end_.x, y := tip.end_.y, z := tip.end_.z,
      age := tip.age, length := tip.length : TipSnap })
  let time1 := m.time + opts.time_step
  let pr := prunePass opts sections3 br.2.2.2
  let tip_data := (getTipsOf pr.1).map (fun t => (t.end_.x, t.end_.y, t.end_.z))
  ({ m with
      sections := pr.1
      time := time1
      step_history := m.step_history ++ [(time1, tip_data)]
      time_series := m.time_series ++ [snapshot]
      biomass_history := m.biomass_history ++ [biomassOf pr.1]
      next_id := br.2.2.1 }, pr.2)

/-- N successive calls of Mycel.step, threading the random state. -/
def runSteps (m : Mycel) (rng : SimRng) : ℕ → Mycel × SimRng
  | 0 => (m, rng)
  | n + 1 => runSteps (step m rng).1 (step m rng).2 n

end Mycel

/-- tropisms/field_finder.py PointFieldFinder: a fixed-point field
emitter. -/
structure PointFieldFinder where
  source : MPoint
  strength : ℝ
  decay : ℝ

namespace PointFieldFinder

/-- field_finder.py PointFieldFinder.find_field: inverse-decay field of
the distance to the source point. -/
def find_field (pf : PointFieldFinder) (p : MPoint) : ℝ :=
  let d := pf.source.distance_to p
  pf.strength / (1 + pf.decay * d)

/-- field_finder.py PointFieldFinder.gradient: zero at the source,
otherwise the source-to-point direction scaled by the decay slope and
then normalised. -/
def gradient (pf : PointFieldFinder) (p : MPoint) : MPoint :=
  let direction := p.subtract pf.source
  let d := direction.norm
  if d = 0 then ⟨0, 0, 0⟩
  else (direction.scale (pf.strength * pf.decay / (1 + pf.decay * d) ^ 2)).normalise

end PointFieldFinder

/-! Concrete configuration and scene values used by witnesses and
counterexamples. -/

/-- A concrete configuration used by witness instantiations. -/
def opts0 : Options where
  growth_rate := 1
  time_step := 1
  length_scaled_growth := false
  length_growth_coef := 1/10
  volume_constraint := false
  x_min := -100
  x_max := 100
  y_min := -100
  y_max := 100
  z_min := -100
  z_max := 100
  direction_memory_blend := 0
  max_branches := 4
  min_tip_age := 0
  min_tip_length := 0
  branch_time_window := 100
  field_threshold := 10
  branch_angle_spread := 90
  curvature_branch_bias := 0
  leading_branch_prob := 0
  rgb_mutations_enabled := false
  color_mutation_prob := 1/5
  color_mutation_scale := 1/10
  initial_color := (1/5, 4/5, 1/5)
  branch_probability := 1/2
  allow_internal_branching := false
  die_if_old := false
  max_age := 1000
  max_length := 1000
  die_if_too_dense := false
  density_threshold := 10
  use_nutrient_field := false
  nutrient_repulsion := 0
  nutrient_attraction := 0
  nutrient_radius := 50
  neighbour_radius := 0
  min_supported_tips := 0
  max_supported_tips := 1000000
  autotropism := 1
  field_alignment_boost := 0
  field_curvature_influence := 0
  gravitropism := 0
  gravi_angle_start := 1
  gravi_angle_end := 2
  anisotropy_enabled := false
  anisotropy_vector := (1, 0, 0)
  anisotropy_strength := 1/10
  random_walk := 0

/-- A concrete section literal used by witness instantiations: a live
seed-like tip at the origin pointing along z. -/
def sec0 : Section where
  id := 0
  start := ⟨0, 0, 0⟩
  orientation := ⟨0, 0, 1⟩
  length := 0
  age := 0
  is_tip := true
  is_dead := false
  branches_made := 0
  parent := none
  children := []
  end_ := ⟨0, 0, 0⟩
  subsegments := [(⟨0, 0, 0⟩, ⟨0, 0, 0⟩)]
  field_aggregator := none
  direction_memory := ⟨0, 0, 1⟩
  options := opts0
  color := (1/5, 4/5, 1/5)

/-- A section configured with max_branches zero, used by the C2
witness. -/
def secMax0 : Section :=
  { sec0 with options := { opts0 with max_branches := 0 } }

/-- A concrete point field source at the origin with unit strength and
unit decay (claim C7). -/
def pf0 : PointFieldFinder where
  source := ⟨0, 0, 0⟩
  strength := 1
  decay := 1

/-- The configuration of the gravitropism scene of claim C6: only
gravitropism is active, ramping between heights 1 and 2. -/
def opts6 : Options := { opts0 with gravitropism := 1 }

/-- The orientator of the gravitropism scene of claim C6: no
aggregator, no grids, no nutrient sources. -/
def o6 : Orientator where
  options := opts6
  aggregator := none
  density_grid := none
  anisotropy_grid := none
  nutrient_sources := []

/-- The tip of the gravitropism scene of claim C6: orientation along x,
end point at height 10, far above the ramp end. -/
def sec6 : Section :=
  { sec0 with orientation := ⟨1, 0, 0⟩, end_ := ⟨0, 0, 10⟩, options := opts6 }

/-- The child returned by the concrete successful maybe_branch call of
the C8 witness. -/
def cW : Section :=
  { Section.create 7 sec0.end_ sec0.orientation sec0.options (some sec0.id)
      (some sec0.color) with
    direction_memory := sec0.direction_memory
    field_aggregator := sec0.field_aggregator }

/-- The parent state after the concrete successful maybe_branch call of
the C8 witness: the parent carries the rotated candidate direction. -/
def sW : Section :=
  { sec0 with
    orientation := sec0.branchDirection
      (-sec0.options.branch_angle_spread +
        (1/2 : ℝ) * (sec0.options.branch_angle_spread -
          -sec0.options.branch_angle_spread))
    children := sec0.children ++ [7]
    branches_made := sec0.branches_made + 1 }

/-- The configuration of the self-exclusion scene of claim C5:
autotropism 1 with the curvature influence active; everything else
neutral, no neighbour-radius culling. -/
def opts5 : Options := { opts0 with field_curvature_influence := 1 }

/-- The section under test in the C5 scene: a degenerate zero-length
segment at the origin whose own line source is registered in the
aggregator. -/
def secA : Section := { sec0 with id := 0, options := opts5 }

/-- A second field source giving the aggregated gradient a nonzero
direction in the C5 scene: a degenerate segment at (2,0,0). -/
def secB : Section :=
  { sec0 with id := 1, start := ⟨2, 0, 0⟩, end_ := ⟨2, 0, 0⟩, options := opts5 }

/-- The aggregator of the C5 scene: the line sources of secA (the
section's own source) and secB, with unit strength and decay. -/
def agg5 : FieldAggregator where
  sources := [⟨0, 1, 1⟩, ⟨1, 1, 1⟩]
  options := some opts5

/-- The orientator of the C5 scene. -/
def o5 : Orientator where
  options := opts5
  aggregator := some agg5
  density_grid := none
  anisotropy_grid := none
  nutrient_sources := []

/-- The section collection of the C5 scene. -/
def ctx5 : List Section := [secA, secB]

/-- The C5 witness orientator: the counterexample scene with the
curvature influence switched off. -/
def o5z : Orientator := { o5 with options := { opts5 with field_curvature_influence := 0 } }

/-- The branch-count invariant of claim C2 for one section: the section
carries the run's configuration and its branch count is within the
configured maximum. -/
def BranchInv (opts : Options) (s : Section) : Prop :=
  s.options = opts ∧ s.branches_made ≤ opts.max_branches

/-- The branch-count invariant over a whole section collection. -/
def AllBranchInv (opts : Options) (secs : List Section) : Prop :=
  ∀ s ∈ secs, BranchInv opts s

/-! Basic vector lemmas used throughout the development. -/

theorem MPoint.norm_nonneg (a : MPoint) : 0 ≤ a.norm :=
  Real.sqrt_nonneg _

theorem MPoint.norm_sq (a : MPoint) : a.norm ^ 2 = a.x ^ 2 + a.y ^ 2 + a.z ^ 2 :=
  Real.sq_sqrt (by positivity)

theorem MPoint.norm_eq_zero_iff (a : MPoint) : a.norm = 0 ↔ a = ⟨0, 0, 0⟩ := by
  constructor
  · intro h
    have h2 : a.x ^ 2 + a.y ^ 2 + a.z ^ 2 ≤ 0 := Real.sqrt_eq_zero'.mp h
    cases a with
    | mk xa ya za =>
      simp only [MPoint.mk.injEq]
      refine ⟨?_, ?_, ?_⟩ <;> nlinarith [sq_nonneg xa, sq_nonneg ya, sq_nonneg za]
  · intro h
    subst h
    simp [MPoint.norm]

theorem MPoint.norm_scale (a : MPoint) (c : ℝ) : (a.scale c).norm = |c| * a.norm := by
  unfold MPoint.scale MPoint.norm
  rw [show (a.x * c) ^ 2 + (a.y * c) ^ 2 + (a.z * c) ^ 2 =
    c ^ 2 * (a.x ^ 2 + a.y ^ 2 + a.z ^ 2) by ring,
    Real.sqrt_mul (sq_nonneg c), Real.sqrt_sq_eq_abs]

theorem MPoint.normalise_norm (a : MPoint) (h : a.norm ≠ 0) : a.normalise.norm = 1 := by
  unfold MPoint.normalise
  rw [if_neg h, MPoint.norm_scale, abs_inv, abs_of_nonneg (MPoint.norm_nonneg a)]
  field_simp

theorem MPoint.normalise_scale_pos (a : MPoint) (c : ℝ) (hc : 0 < c) :
    (a.scale c).normalise = a.normalise := by
  by_cases h : a.norm = 0
  · have hz : a = ⟨0, 0, 0⟩ := (MPoint.norm_eq_zero_iff a).mp h
    subst hz
    have : (⟨0, 0, 0⟩ : MPoint).scale c = ⟨0, 0, 0⟩ := by
      simp [MPoint.scale]
    rw [this]
  · have hsc : (a.scale c).norm ≠ 0 := by
      rw [MPoint.norm_scale, abs_of_pos hc]
      exact mul_ne_zero (ne_of_gt hc) h
    unfold MPoint.normalise
    rw [if_neg hsc, if_neg h, MPoint.norm_scale, abs_of_pos hc]
    unfold MPoint.scale
    ext <;> field_simp <;> ring

theorem MPoint.normalise_of_norm_one (a : MPoint) (h : a.norm = 1) : a.normalise = a := by
  unfold MPoint.normalise
  rw [if_neg (by rw [h]; norm_num), h]
  unfold MPoint.scale
  ext <;> simp

/-- The norm of the unit z vector. -/
theorem MPoint.norm_unit_z : (⟨0, 0, 1⟩ : MPoint).norm = 1 := by
  unfold MPoint.norm
  norm_num

theorem MPoint.normalise_unit_z : (⟨0, 0, 1⟩ : MPoint).normalise = ⟨0, 0, 1⟩ :=
  MPoint.normalise_of_norm_one _ MPoint.norm_unit_z

/-- The norm of a vector supported on the x axis. -/
theorem MPoint.norm_xonly (a : ℝ) : (⟨a, 0, 0⟩ : MPoint).norm = |a| := by
  unfold MPoint.norm
  rw [show (⟨a, 0, 0⟩ : MPoint).x ^ 2 + (⟨a, 0, 0⟩ : MPoint).y ^ 2 +
    (⟨a, 0, 0⟩ : MPoint).z ^ 2 = a ^ 2 by ring, Real.sqrt_sq_eq_abs]

/-- Normalising a nonzero vector supported on the x axis divides by the
absolute value of its coordinate. -/
theorem MPoint.normalise_xonly (a : ℝ) (h : a ≠ 0) :
    (⟨a, 0, 0⟩ : MPoint).normalise = ⟨a / |a|, 0, 0⟩ := by
  unfold MPoint.normalise
  rw [MPoint.norm_xonly]
  rw [if_neg (abs_ne_zero.mpr h)]
  unfold MPoint.scale
  ext <;> simp [div_eq_mul_inv]

theorem MPoint.normalise_xonly_neg (a : ℝ) (h : a < 0) :
    (⟨a, 0, 0⟩ : MPoint).normalise = ⟨-1, 0, 0⟩ := by
  rw [MPoint.normalise_xonly a (ne_of_lt h), abs_of_neg h]
  ext <;> simp
  rw [div_neg, div_self (ne_of_lt h)]

theorem MPoint.normalise_xonly_pos (a : ℝ) (h : 0 < a) :
    (⟨a, 0, 0⟩ : MPoint).normalise = ⟨1, 0, 0⟩ := by
  rw [MPoint.normalise_xonly a (ne_of_gt h), abs_of_pos h]
  ext <;> simp
  rw [div_self (ne_of_gt h)]

/-! Claim theorems. -/

/-- C3: for every segment, immediately after any call to update() the
segment's length equals the Euclidean distance from its start point to
its end point within tolerance 1e-9 (in the real-valued model the two
are exactly equal, so the difference is zero). -/
theorem c3_update_length_matches_distance (s : Section) :
    |(s.update).length - (s.update).start.distance_to (s.update).end_| ≤ 1e-9 := by
  simp only [Section.update]
  norm_num

/-- C9: whenever maybe_branch returns none, the segment's observable
state (every field: orientation, start, end, length, age,
branches_made, children, subsegments, color, is_tip, is_dead, and the
rest) is exactly as before the call. -/
theorem c9_maybe_branch_none_leaves_state (s : Section) (ctx : List Section)
    (chance : ℝ) (tc nid : ℕ) (rng : SimRng)
    (h : (s.maybe_branch ctx chance tc nid rng).1 = none) :
    (s.maybe_branch ctx chance tc nid rng).2.1 = s := by
  simp only [Section.maybe_branch] at h ⊢
  split_ifs at h ⊢ <;> rfl

/-- C9 witness: a non-tip section is left untouched by maybe_branch. -/
theorem c9_witness :
    (({ sec0 with is_tip := false } : Section).maybe_branch
        [] (1/2) 0 1 ⟨[], []⟩).2.1 = { sec0 with is_tip := false } :=
  c9_maybe_branch_none_leaves_state _ _ _ _ _ _ (by
    simp [Section.maybe_branch])

/-- C10: maybe_branch returns none for every segment whose age is below
the configured min_tip_age or whose length is below the configured
min_tip_length, regardless of every other gate and every random
draw. -/
theorem c10_min_age_length_gate (s : Section) (ctx : List Section)
    (chance : ℝ) (tc nid : ℕ) (rng : SimRng)
    (h : s.age < s.options.min_tip_age ∨ s.length < s.options.min_tip_length) :
    (s.maybe_branch ctx chance tc nid rng).1 = none := by
  simp only [Section.maybe_branch]
  split_ifs <;> rfl

/-- C10 witness: a too-young live tip never branches, here with a draw
stream that would pass every stochastic gate. -/
theorem c10_witness :
    (({ sec0 with age := 1, options := { opts0 with min_tip_age := 5 } } :
        Section).maybe_branch [] 1 0 1 ⟨[0, 0, 0], [0]⟩).1 = none :=
  c10_min_age_length_gate _ _ _ _ _ _ (by
    left
    show (1 : ℝ) < 5
    norm_num)

/-- C1: two independent runs of the growth engine that start from the
same seeded random-generator state and the same seed segment, each
executing N calls of Mycel.step, produce equal biomass_history
sequences.  In the embedding every stochastic draw is read off the
explicit random state, so a run is a pure function of the initial state
and the random state. -/
theorem c1_step_determinism (opts : Options) (loc orient : MPoint)
    (color : Option Color) (m1 m2 : Mycel) (r r1 r2 : SimRng) (N : ℕ)
    (hm1 : m1 = (Mycel.init opts).seed loc orient color)
    (hm2 : m2 = (Mycel.init opts).seed loc orient color)
    (hr1 : r1 = r) (hr2 : r2 = r) :
    (Mycel.runSteps m1 r1 N).1.biomass_history =
      (Mycel.runSteps m2 r2 N).1.biomass_history := by
  subst hm1 hm2 hr1 hr2
  rfl

/-- C1 witness: the determinism theorem applied to a concrete seeded
run of three steps. -/
theorem c1_witness :
    (Mycel.runSteps ((Mycel.init opts0).seed ⟨0, 0, 0⟩ ⟨0, 0, 1⟩ none)
        ⟨[1/3, 1/2], [1/4]⟩ 3).1.biomass_history =
      (Mycel.runSteps ((Mycel.init opts0).seed ⟨0, 0, 0⟩ ⟨0, 0, 1⟩ none)
        ⟨[1/3, 1/2], [1/4]⟩ 3).1.biomass_history :=
  c1_step_determinism opts0 ⟨0, 0, 0⟩ ⟨0, 0, 1⟩ none _ _ ⟨[1/3, 1/2], [1/4]⟩ _ _ 3
    rfl rfl rfl rfl

/-- C4: a freshly created live tip at the origin with unit orientation
along z, with length-scaled growth and the volume constraint disabled
(the source's grow has no age-based slowdown to disable), ends one
grow(1, 1) call with end point (0,0,1) and length 1. -/
theorem c4_grow_scenario (opts : Options)
    (h1 : opts.length_scaled_growth = false)
    (h2 : opts.volume_constraint = false) :
    ((Section.create 0 ⟨0, 0, 0⟩ ⟨0, 0, 1⟩ opts none none).grow 1 1).end_ =
        (⟨0, 0, 1⟩ : MPoint) ∧
      ((Section.create 0 ⟨0, 0, 0⟩ ⟨0, 0, 1⟩ opts none none).grow 1 1).length = 1 := by
  simp only [Section.create, Section.grow, Section.growMemoryUpdate,
    MPoint.normalise_unit_z, h1, h2, MPoint.scale, MPoint.add]
  norm_num

/-! Preservation lemmas for the branch-count invariant (claim C2). -/

theorem branchInv_grow (opts : Options) (s : Section) (r dt : ℝ)
    (h : BranchInv opts s) : BranchInv opts (s.grow r dt) := by
  simp only [Section.grow, Section.growMemoryUpdate]
  split_ifs <;> exact h

theorem branchInv_update (opts : Options) (s : Section)
    (h : BranchInv opts s) : BranchInv opts s.update := h

theorem branchInv_dead (opts : Options) (s : Section)
    (h : BranchInv opts s) : BranchInv opts { s with is_dead := true } := h

theorem branchInv_maybe_branch_parent (opts : Options) (s : Section)
    (ctx : List Section) (chance : ℝ) (tc nid : ℕ) (rng : SimRng)
    (h : BranchInv opts s) :
    BranchInv opts (s.maybe_branch ctx chance tc nid rng).2.1 := by
  simp only [Section.maybe_branch]
  split_ifs with g1 g2 g3 g4 g5 g6
  · exact h
  · exact h
  · exact h
  · exact h
  · exact h
  · refine ⟨h.1, ?_⟩
    have hlt := Nat.lt_of_not_le g2
    rw [h.1] at hlt
    exact hlt
  · exact h

theorem branchInv_maybe_branch_child (opts : Options) (s : Section)
    (ctx : List Section) (chance : ℝ) (tc nid : ℕ) (rng : SimRng) (c : Section)
    (hs : BranchInv opts s)
    (h : (s.maybe_branch ctx chance tc nid rng).1 = some c) :
    BranchInv opts c := by
  simp only [Section.maybe_branch] at h
  split_ifs at h
  injection h with h
  subst h
  exact ⟨hs.1, Nat.zero_le _⟩

theorem allBranchInv_set (opts : Options) (secs : List Section) (i : ℕ)
    (sec : Section) (h : AllBranchInv opts secs) (hsec : BranchInv opts sec) :
    AllBranchInv opts (secs.set i sec) := fun s hs =>
  (List.mem_or_eq_of_mem_set hs).elim (h s) (fun he => he ▸ hsec)

theorem allBranchInv_growPass (opts o2 : Options) (secs : List Section) (r dt : ℝ)
    (h : AllBranchInv opts secs) :
    AllBranchInv opts (secs.map (fun s =>
      if s.is_dead = true then s else (s.grow r dt).update)) := by
  intro s hs
  obtain ⟨t, ht, rfl⟩ := List.mem_map.mp hs
  split_ifs
  · exact h t ht
  · exact branchInv_update opts _ (branchInv_grow opts t r dt (h t ht))

theorem allBranchInv_destructorStep (opts o2 : Options) (secs : List Section)
    (i : ℕ) (h : AllBranchInv opts secs) :
    AllBranchInv opts (Mycel.destructorStep o2 secs i) := by
  unfold Mycel.destructorStep
  cases hg : secs.get? i with
  | none => exact h
  | some sec =>
    dsimp only
    split_ifs
    · exact h
    · exact allBranchInv_set opts secs i _ h
        (branchInv_dead opts sec (h sec (List.get?_mem hg)))
    · exact h

theorem allBranchInv_destructorFold (opts o2 : Options) (l : List ℕ) :
    ∀ secs : List Section, AllBranchInv opts secs →
      AllBranchInv opts (l.foldl (Mycel.destructorStep o2) secs) := by
  induction l with
  | nil => intro secs h; exact h
  | cons a l ih =>
    intro secs h
    exact ih _ (allBranchInv_destructorStep opts o2 secs a h)

theorem allBranchInv_destructorPass (opts o2 : Options) (secs : List Section)
    (h : AllBranchInv opts secs) :
    AllBranchInv opts (Mycel.destructorPass o2 secs) :=
  allBranchInv_destructorFold opts o2 _ secs h

theorem allBranchInv_branchStep (opts o2 : Options) (tc : ℕ)
    (st : List Section × List Section × ℕ × SimRng) (i : ℕ)
    (h1 : AllBranchInv opts st.1) (h2 : AllBranchInv opts st.2.1) :
    AllBranchInv opts (Mycel.branchStep o2 tc st i).1 ∧
      AllBranchInv opts (Mycel.branchStep o2 tc st i).2.1 := by
  unfold Mycel.branchStep
  cases hg : st.1.get? i with
  | none =>
    simp only [hg]
    exact ⟨h1, h2⟩
  | some sec =>
    have hmem : sec ∈ st.1 := List.get?_mem hg
    simp only [hg]
    split_ifs
    · exact ⟨h1, h2⟩
    · cases hmb : (sec.maybe_branch st.1 o2.branch_probability tc st.2.2.1 st.2.2.2).1 with
      | some child =>
        simp only [hmb]
        refine ⟨allBranchInv_set opts _ i _ h1
          (branchInv_maybe_branch_parent opts sec _ _ _ _ _ (h1 sec hmem)), ?_⟩
        intro s hs
        rcases List.mem_append.mp hs with hsl | hsr
        · exact h2 s hsl
        · have : s = child := List.mem_singleton.mp hsr
          subst this
          exact branchInv_maybe_branch_child opts sec _ _ _ _ _ _ (h1 sec hmem) hmb
      | none =>
        simp only [hmb]
        exact ⟨allBranchInv_set opts _ i _ h1
          (branchInv_maybe_branch_parent opts sec _ _ _ _ _ (h1 sec hmem)), h2⟩
    · exact ⟨h1, h2⟩

theorem allBranchInv_branchFold (opts o2 : Options) (tc : ℕ) (l : List ℕ) :
    ∀ st : List Section × List Section × ℕ × SimRng,
      AllBranchInv opts st.1 → AllBranchInv opts st.2.1 →
      AllBranchInv opts (l.foldl (Mycel.branchStep o2 tc) st).1 ∧
        AllBranchInv opts (l.foldl (Mycel.branchStep o2 tc) st).2.1 := by
  induction l with
  | nil => intro st h1 h2; exact ⟨h1, h2⟩
  | cons a l ih =>
    intro st h1 h2
    have hs := allBranchInv_branchStep opts o2 tc st a h1 h2
    exact ih _ hs.1 hs.2

theorem allBranchInv_append (opts : Options) (a b : List Section)
    (ha : AllBranchInv opts a) (hb : AllBranchInv opts b) :
    AllBranchInv opts (a ++ b) := by
  intro s hs
  rcases List.mem_append.mp hs with h | h
  · exact ha s h
  · exact hb s h

theorem allBranchInv_prunePass (opts o2 : Options) (secs : List Section)
    (rng : SimRng) (h : AllBranchInv opts secs) :
    AllBranchInv opts (Mycel.prunePass o2 secs rng).1 := by
  simp only [Mycel.prunePass]
  split_ifs
  · intro s hs
    obtain ⟨t, ht, rfl⟩ := List.mem_map.mp hs
    split_ifs
    · exact branchInv_dead opts t (h t ht)
    · exact h t ht
  · exact h
  · exact h

theorem allBranchInv_step (opts : Options) (m : Mycel) (rng : SimRng)
    (hopts : m.options = opts) (h : AllBranchInv opts m.sections) :
    AllBranchInv opts (Mycel.step m rng).1.sections ∧
      (Mycel.step m rng).1.options = opts := by
  unfold Mycel.step
  refine ⟨?_, hopts⟩
  apply allBranchInv_prunePass
  apply allBranchInv_append
  · exact (allBranchInv_branchFold opts m.options _ _ _
      (allBranchInv_destructorPass opts m.options _
        (allBranchInv_growPass opts m.options _ _ _ h)) (fun s hs => absurd hs
          (List.not_mem_nil s))).1
  · exact (allBranchInv_branchFold opts m.options _ _ _
      (allBranchInv_destructorPass opts m.options _
        (allBranchInv_growPass opts m.options _ _ _ h)) (fun s hs => absurd hs
          (List.not_mem_nil s))).2

theorem allBranchInv_runSteps (opts : Options) (N : ℕ) :
    ∀ (m : Mycel) (rng : SimRng), m.options = opts →
      AllBranchInv opts m.sections →
      AllBranchInv opts (Mycel.runSteps m rng N).1.sections := by
  induction N with
  | zero => intro m rng _ h; exact h
  | succ n ih =>
    intro m rng hopts h
    have hs := allBranchInv_step opts m rng hopts h
    exact ih _ _ hs.2 hs.1

/-- C2: over any run of the growth engine from a seeded state, every
section's branches_made stays at most the configured max_branches, and
a segment configured with max_branches zero never produces a child from
maybe_branch, for every outcome of the random draws. -/
theorem c2_branches_within_max (opts : Options) (loc orient : MPoint)
    (color : Option Color) (rng : SimRng) (N : ℕ) :
    (∀ s ∈ (Mycel.runSteps ((Mycel.init opts).seed loc orient color) rng N).1.sections,
      s.branches_made ≤ opts.max_branches) ∧
    (∀ (s : Section) (ctx : List Section) (chance : ℝ) (tc nid : ℕ) (rng2 : SimRng),
      s.options.max_branches = 0 →
      (s.maybe_branch ctx chance tc nid rng2).1 = none) := by
  constructor
  · intro s hs
    have hinv : AllBranchInv opts ((Mycel.init opts).seed loc orient color).sections := by
      intro t ht
      have : t = Section.create 0 loc orient opts none color := by
        simpa [Mycel.seed, Mycel.init] using ht
      subst this
      exact ⟨rfl, Nat.zero_le _⟩
    exact (allBranchInv_runSteps opts N _ rng rfl hinv s hs).2
  · intro s ctx chance tc nid rng2 hmax
    unfold Section.maybe_branch
    split_ifs with g1 g2
    · rfl
    · rfl
    all_goals exact absurd (hmax ▸ Nat.zero_le s.branches_made) g2

/-- C2 witness: the invariant read off a concrete one-step run, and the
max_branches-zero refusal at a concrete segment and draw stream. -/
theorem c2_witness :
    (Section.create 0 ⟨0, 0, 0⟩ ⟨0, 0, 1⟩ opts0 none none).branches_made ≤
        opts0.max_branches ∧
      (secMax0.maybe_branch [] 1 0 1 ⟨[0, 0], [0]⟩).1 = none := by
  constructor
  · exact (c2_branches_within_max opts0 ⟨0, 0, 0⟩ ⟨0, 0, 1⟩ none ⟨[], []⟩ 0).1 _
      (by simp [Mycel.runSteps, Mycel.seed, Mycel.init])
  · exact (c2_branches_within_max opts0 ⟨0, 0, 0⟩ ⟨0, 0, 1⟩ none ⟨[], []⟩ 0).2
      secMax0 [] 1 0 1 ⟨[0, 0], [0]⟩ rfl

/-- C7 counterexample: for the unit point source at the origin queried
at distance 1, the returned gradient is the unit vector (1,0,0) with
magnitude 1 — not the claimed vector scaled by
strength·decay/(1+decay·d)² = 1/4, because the source normalises the
scaled vector before returning it. -/
theorem c7_counterexample :
    PointFieldFinder.gradient pf0 ⟨1, 0, 0⟩ = (⟨1, 0, 0⟩ : MPoint) ∧
    (PointFieldFinder.gradient pf0 ⟨1, 0, 0⟩).norm = 1 ∧
    pf0.strength * pf0.decay /
        (1 + pf0.decay * (pf0.source.distance_to ⟨1, 0, 0⟩)) ^ 2 = 1/4 ∧
    (((⟨1, 0, 0⟩ : MPoint).subtract pf0.source).normalise).scale (1/4) ≠
      PointFieldFinder.gradient pf0 ⟨1, 0, 0⟩ := by
  have hsub : (⟨1, 0, 0⟩ : MPoint).subtract pf0.source = ⟨1, 0, 0⟩ := by
    simp [pf0, MPoint.subtract]
  have hd : ((⟨1, 0, 0⟩ : MPoint).subtract pf0.source).norm = 1 := by
    rw [hsub, MPoint.norm_xonly]
    norm_num
  have hgrad : PointFieldFinder.gradient pf0 ⟨1, 0, 0⟩ = (⟨1, 0, 0⟩ : MPoint) := by
    unfold PointFieldFinder.gradient
    rw [hsub]
    simp only [MPoint.norm_xonly]
    rw [if_neg (by norm_num)]
    have : ((⟨1, 0, 0⟩ : MPoint).scale
        (pf0.strength * pf0.decay / (1 + pf0.decay * |(1 : ℝ)|) ^ 2)) =
        (⟨1/4, 0, 0⟩ : MPoint) := by
      simp [pf0, MPoint.scale]
      norm_num
    rw [this, MPoint.normalise_xonly_pos (1/4) (by norm_num)]
  refine ⟨hgrad, by rw [hgrad, MPoint.norm_xonly]; norm_num, ?_, ?_⟩
  · have : pf0.source.distance_to ⟨1, 0, 0⟩ = 1 := by
      unfold MPoint.distance_to
      simp [pf0, MPoint.subtract]
      rw [show ((⟨-1, 0, 0⟩ : MPoint)) = ⟨(-1 : ℝ), 0, 0⟩ from rfl, MPoint.norm_xonly]
      norm_num
    rw [this]
    simp [pf0]
    norm_num
  · rw [hgrad, hsub, MPoint.normalise_xonly_pos 1 (by norm_num)]
    intro hcontr
    have := congrArg MPoint.x hcontr
    simp [MPoint.scale] at this

/-- C7 amended: at distance 0 the gradient is the zero vector; at
positive distance (with positive strength·decay and a nonvanishing
decay denominator) the gradient is the normalisation of the scaled
source-to-point direction, i.e. the unit vector from the source toward
the query point, of magnitude 1 — not of magnitude
strength·decay/(1+decay·d)². -/
theorem c7_amended :
    (∀ (pf : PointFieldFinder) (p : MPoint),
      (p.subtract pf.source).norm ≠ 0 →
      0 < pf.strength * pf.decay →
      1 + pf.decay * (p.subtract pf.source).norm ≠ 0 →
      PointFieldFinder.gradient pf p = (p.subtract pf.source).normalise ∧
        (PointFieldFinder.gradient pf p).norm = 1) ∧
    (∀ (pf : PointFieldFinder) (p : MPoint),
      (p.subtract pf.source).norm = 0 →
      PointFieldFinder.gradient pf p = ⟨0, 0, 0⟩) := by
  constructor
  · intro pf p hd hsd hden
    have hc : 0 < pf.strength * pf.decay /
        (1 + pf.decay * (p.subtract pf.source).norm) ^ 2 := by
      apply div_pos hsd
      exact lt_of_le_of_ne (sq_nonneg _) (fun he => hden (by
        have := he.symm
        exact pow_eq_zero_iff (n := 2) (by norm_num) |>.mp this))
    have heq : PointFieldFinder.gradient pf p = (p.subtract pf.source).normalise := by
      unfold PointFieldFinder.gradient
      rw [if_neg hd]
      exact MPoint.normalise_scale_pos _ _ hc
    exact ⟨heq, by rw [heq]; exact MPoint.normalise_norm _ hd⟩
  · intro pf p hd
    unfold PointFieldFinder.gradient
    rw [if_pos hd]

/-- C7 witness: the amended theorem applied to the concrete source and
query point at distance 1. -/
theorem c7_witness :
    PointFieldFinder.gradient pf0 ⟨1, 0, 0⟩ =
      ((⟨1, 0, 0⟩ : MPoint).subtract pf0.source).normalise :=
  (c7_amended.1 pf0 ⟨1, 0, 0⟩
    (by
      rw [show (⟨1, 0, 0⟩ : MPoint).subtract pf0.source = ⟨1, 0, 0⟩ by
        simp [pf0, MPoint.subtract], MPoint.norm_xonly]
      norm_num)
    (by norm_num [pf0])
    (by
      rw [show (⟨1, 0, 0⟩ : MPoint).subtract pf0.source = ⟨1, 0, 0⟩ by
        simp [pf0, MPoint.subtract], MPoint.norm_xonly]
      norm_num [pf0])).1

/-- C6 counterexample: with gravitropism 1 active and the tip at height
10 (above the ramp end), the source adds strength·(0,−1,0), not
strength·(0,0,−1): the accumulated vector (1,0,0) becomes (1,−1,0), and
the full compute returns an orientation whose second (y) component is
nonzero, while the claim predicts the y component would stay zero. -/
theorem c6_counterexample :
    Orientator.gravitropismStage opts6 10 ⟨1, 0, 0⟩ = (⟨1, -1, 0⟩ : MPoint) ∧
    Orientator.gravStrength opts6 10 = 1 ∧
    Orientator.gravitropismStage opts6 10 ⟨1, 0, 0⟩ ≠
      (⟨1, 0, 0⟩ : MPoint).add
        ((⟨0, 0, -1⟩ : MPoint).scale (Orientator.gravStrength opts6 10)) ∧
    (Orientator.compute o6 [] sec6 ⟨[], []⟩).1.y ≠ 0 := by
  have hstr : Orientator.gravStrength opts6 10 = 1 := by
    unfold Orientator.gravStrength
    rw [if_neg (by show ¬ ((10 : ℝ) < opts6.gravi_angle_start); show ¬ ((10:ℝ) < 1); norm_num),
      if_pos (by show (opts6.gravi_angle_end : ℝ) < 10; show (2:ℝ) < 10; norm_num)]
    rfl
  have hstage : Orientator.gravitropismStage opts6 10 ⟨1, 0, 0⟩ = (⟨1, -1, 0⟩ : MPoint) := by
    unfold Orientator.gravitropismStage
    rw [if_pos (by show (0:ℝ) < opts6.gravitropism; show (0:ℝ) < 1; norm_num), hstr]
    simp [MPoint.add, MPoint.scale]
  have hcompute : (Orientator.compute o6 [] sec6 ⟨[], []⟩).1 =
      (⟨1, -1, 0⟩ : MPoint).normalise := by
    simp only [Orientator.compute, Orientator.computeWith]
    have h1 : Orientator.autotropismStage o6 [] sec6 sec6.orientation [] =
        sec6.orientation := rfl
    rw [h1]
    have h2 : Orientator.densityStage o6 sec6 sec6.orientation = sec6.orientation := by
      unfold Orientator.densityStage
      rw [if_neg (by show ¬ (o6.options.die_if_too_dense = true); simp [o6, opts6, opts0])]
    rw [h2]
    have h3 : Orientator.gravitropismStage o6.options sec6.end_.z sec6.orientation =
        (⟨1, -1, 0⟩ : MPoint) := hstage
    rw [h3]
    have h4 : Orientator.nutrientStage o6 sec6.end_ (⟨1, -1, 0⟩ : MPoint) =
        (⟨1, -1, 0⟩ : MPoint) := rfl
    rw [h4]
    have h5 : Orientator.anisotropyStage o6 sec6.end_ (⟨1, -1, 0⟩ : MPoint) =
        (⟨1, -1, 0⟩ : MPoint) := by
      unfold Orientator.anisotropyStage
      rw [if_neg (by show ¬ (o6.options.anisotropy_enabled = true); simp [o6, opts6, opts0])]
    rw [h5]
    have h6 : Orientator.randomWalkStage o6 (⟨1, -1, 0⟩ : MPoint) ⟨[], []⟩ =
        ((⟨1, -1, 0⟩ : MPoint), ⟨[], []⟩) := by
      unfold Orientator.randomWalkStage
      rw [if_neg (by show ¬ ((0:ℝ) < o6.options.random_walk); simp [o6, opts6, opts0])]
    rw [h6]
    have h7 : Orientator.memoryStage o6 sec6.orientation (⟨1, -1, 0⟩ : MPoint) =
        (⟨1, -1, 0⟩ : MPoint) := by
      unfold Orientator.memoryStage
      rw [if_neg (by show ¬ ((0:ℝ) < o6.options.direction_memory_blend); simp [o6, opts6, opts0])]
    rw [h7]
  have hnorm : (⟨1, -1, 0⟩ : MPoint).norm = Real.sqrt 2 := by
    unfold MPoint.norm
    norm_num
  refine ⟨hstage, hstr, ?_, ?_⟩
  · rw [hstage, hstr]
    intro hcontr
    have := congrArg MPoint.y hcontr
    simp [MPoint.add, MPoint.scale] at this
  · rw [hcompute]
    unfold MPoint.normalise
    rw [hnorm, if_neg (by positivity)]
    simp only [MPoint.scale]
    intro hcontr
    simp at hcontr

/-- C6 amended: when gravitropism is positive the source adds
strength·(0,−1,0) — the negative y axis, not (0,0,−1) — so only the
second (y) component of the accumulated orientation changes; the ramp
strength is 0 below gravi_angle_start, the full gravitropism value
above gravi_angle_end, and linear in between. -/
theorem c6_amended (opts : Options) (z : ℝ) (v : MPoint)
    (h : 0 < opts.gravitropism)
    (hse : opts.gravi_angle_start ≤ opts.gravi_angle_end) :
    Orientator.gravitropismStage opts z v =
      v.add ((⟨0, -1, 0⟩ : MPoint).scale (Orientator.gravStrength opts z)) ∧
    (Orientator.gravitropismStage opts z v).x = v.x ∧
    (Orientator.gravitropismStage opts z v).z = v.z ∧
    (Orientator.gravitropismStage opts z v).y = v.y - Orientator.gravStrength opts z ∧
    (z < opts.gravi_angle_start → Orientator.gravStrength opts z = 0) ∧
    (opts.gravi_angle_end < z → Orientator.gravStrength opts z = opts.gravitropism) ∧
    (opts.gravi_angle_start ≤ z → z ≤ opts.gravi_angle_end →
      Orientator.gravStrength opts z =
        ((z - opts.gravi_angle_start) / (opts.gravi_angle_end - opts.gravi_angle_start)) *
          opts.gravitropism) := by
  have hstage : Orientator.gravitropismStage opts z v =
      v.add ((⟨0, -1, 0⟩ : MPoint).scale (Orientator.gravStrength opts z)) := by
    unfold Orientator.gravitropismStage
    rw [if_pos h]
  refine ⟨hstage, ?_, ?_, ?_, ?_, ?_, ?_⟩
  · rw [hstage]; simp [MPoint.add, MPoint.scale]
  · rw [hstage]; simp [MPoint.add, MPoint.scale]
  · rw [hstage]; simp [MPoint.add, MPoint.scale]; ring
  · intro hz
    unfold Orientator.gravStrength
    rw [if_pos hz]
  · intro hz
    unfold Orientator.gravStrength
    rw [if_neg (by linarith), if_pos hz]
  · intro hz1 hz2
    unfold Orientator.gravStrength
    rw [if_neg (by linarith), if_neg (by linarith)]

/-- C6 witness: the amended theorem applied at the concrete scene. -/
theorem c6_witness :
    Orientator.gravitropismStage opts6 10 ⟨1, 0, 0⟩ =
      (⟨1, 0, 0⟩ : MPoint).add
        ((⟨0, -1, 0⟩ : MPoint).scale (Orientator.gravStrength opts6 10)) :=
  (c6_amended opts6 10 ⟨1, 0, 0⟩ (by show (0:ℝ) < 1; norm_num)
    (by show (1:ℝ) ≤ 2; norm_num)).1

/-! Geometry of the branch rotation (claim C8): maybe_branch rotates
the parent orientation around the z axis by a uniform draw in
[-spread, spread]; such a rotation never moves a unit vector by more
than the drawn angle, so the result stays inside the cone of half-angle
spread around the parent orientation. -/

/-- Rodrigues rotation around the unit z axis, in coordinates. -/
theorem MPoint.rotated_around_z (v : MPoint) (θdeg : ℝ) :
    v.rotated_around ⟨0, 0, 1⟩ θdeg =
      ⟨v.x * Real.cos (θdeg * Real.pi / 180) - v.y * Real.sin (θdeg * Real.pi / 180),
       v.x * Real.sin (θdeg * Real.pi / 180) + v.y * Real.cos (θdeg * Real.pi / 180),
       v.z⟩ := by
  unfold MPoint.rotated_around
  rw [MPoint.norm_unit_z]
  unfold MPoint.scale MPoint.cross MPoint.dot MPoint.add
  ext <;> simp <;> ring

/-- The dot product of a unit vector with its rotation around z. -/
theorem MPoint.rotated_around_z_dot (v : MPoint) (θdeg : ℝ)
    (hsum : v.x ^ 2 + v.y ^ 2 + v.z ^ 2 = 1) :
    v.dot (v.rotated_around ⟨0, 0, 1⟩ θdeg) =
      Real.cos (θdeg * Real.pi / 180) +
        (1 - Real.cos (θdeg * Real.pi / 180)) * v.z ^ 2 := by
  rw [MPoint.rotated_around_z]
  unfold MPoint.dot
  linear_combination Real.cos (θdeg * Real.pi / 180) * hsum

/-- Rotation around z preserves the norm. -/
theorem MPoint.rotated_around_z_norm (v : MPoint) (θdeg : ℝ) :
    (v.rotated_around ⟨0, 0, 1⟩ θdeg).norm = v.norm := by
  rw [MPoint.rotated_around_z]
  unfold MPoint.norm
  congr 1
  linear_combination (v.x ^ 2 + v.y ^ 2) *
    (Real.sin_sq_add_cos_sq (θdeg * Real.pi / 180))

/-- The cone bound: rotating a unit vector around the z axis by an
angle of absolute value at most spread degrees keeps it within the cone
of half-angle spread degrees around its original direction. -/
theorem MPoint.rotated_around_z_cone (v : MPoint) (θdeg spread : ℝ)
    (hv : v.norm = 1) (hθ : |θdeg| ≤ spread) :
    Real.arccos (v.dot (v.rotated_around ⟨0, 0, 1⟩ θdeg)) ≤
      spread * Real.pi / 180 := by
  have hsum : v.x ^ 2 + v.y ^ 2 + v.z ^ 2 = 1 := by
    have h2 := MPoint.norm_sq v
    rw [hv] at h2
    linarith [h2]
  have hz2 : v.z ^ 2 ≤ 1 := by nlinarith [sq_nonneg v.x, sq_nonneg v.y]
  have hdot := MPoint.rotated_around_z_dot v θdeg hsum
  have hc1 : Real.cos (θdeg * Real.pi / 180) ≤ 1 := Real.cos_le_one _
  have hd_ge : Real.cos (θdeg * Real.pi / 180) ≤
      v.dot (v.rotated_around ⟨0, 0, 1⟩ θdeg) := by
    rw [hdot]
    nlinarith [sq_nonneg v.z]
  have harc : Real.arccos (v.dot (v.rotated_around ⟨0, 0, 1⟩ θdeg)) ≤
      Real.arccos (Real.cos (θdeg * Real.pi / 180)) := by
    rw [Real.arccos_eq_pi_div_two_sub_arcsin, Real.arccos_eq_pi_div_two_sub_arcsin]
    linarith [Real.monotone_arcsin hd_ge]
  have habs : |θdeg * Real.pi / 180| = |θdeg| * Real.pi / 180 := by
    rw [abs_div, abs_mul, abs_of_pos Real.pi_pos]
    norm_num
  have hspread : |θdeg * Real.pi / 180| ≤ spread * Real.pi / 180 := by
    rw [habs]
    have hpi : (0 : ℝ) ≤ Real.pi := le_of_lt Real.pi_pos
    gcongr
  by_cases hbig : |θdeg * Real.pi / 180| ≤ Real.pi
  · calc Real.arccos (v.dot (v.rotated_around ⟨0, 0, 1⟩ θdeg)) ≤
        Real.arccos (Real.cos (θdeg * Real.pi / 180)) := harc
      _ = Real.arccos (Real.cos |θdeg * Real.pi / 180|) := by rw [Real.cos_abs]
      _ = |θdeg * Real.pi / 180| := Real.arccos_cos (abs_nonneg _) hbig
      _ ≤ spread * Real.pi / 180 := hspread
  · push_neg at hbig
    exact le_trans (Real.arccos_le_pi _) (le_of_lt (lt_of_lt_of_le hbig hspread))

/-- Unit-interval draws survive popping the numpy stream. -/
theorem SimRng.popNp_bounds (r : SimRng) (h : ∀ u ∈ r.np, 0 ≤ u ∧ u < 1) :
    (0 ≤ r.popNp.1 ∧ r.popNp.1 < 1) ∧ ∀ u ∈ r.popNp.2.np, 0 ≤ u ∧ u < 1 := by
  cases r with
  | mk np py =>
    cases np with
    | nil =>
      simp only [SimRng.popNp]
      refine ⟨⟨le_refl 0, by norm_num⟩, ?_⟩
      intro u hu
      exact absurd hu (List.not_mem_nil u)
    | cons a l =>
      simp only [SimRng.popNp]
      refine ⟨h a (List.mem_cons_self a l), ?_⟩
      intro u hu
      exact h u (List.mem_cons_of_mem a hu)

/-- The dot of a unit vector with itself is one. -/
theorem MPoint.dot_self_of_unit (v : MPoint) (hv : v.norm = 1) : v.dot v = 1 := by
  have h2 := MPoint.norm_sq v
  rw [hv] at h2
  unfold MPoint.dot
  nlinarith [h2]

/-- The cone bound for both outputs of the success branch of
maybe_branch when the curvature bias and the memory blend are zero:
whichever of the child and the parent carries the rotated direction,
both end up within the cone of half-angle branch_angle_spread around
the pre-branch orientation (the one not carrying it keeps the
pre-branch orientation itself, at angle zero). -/
theorem branchResult_cone (s : Section) (nid : ℕ) (rng1 : SimRng)
    (hbias : s.options.curvature_branch_bias = 0)
    (hblend : s.options.direction_memory_blend = 0)
    (hspread : 0 ≤ s.options.branch_angle_spread)
    (hunit : s.orientation.norm = 1)
    (hrng : ∀ u ∈ rng1.np, 0 ≤ u ∧ u < 1) :
    Real.arccos (s.orientation.dot (s.branchResult nid rng1).1.orientation) ≤
        s.options.branch_angle_spread * Real.pi / 180 ∧
      Real.arccos (s.orientation.dot (s.branchResult nid rng1).2.1.orientation) ≤
        s.options.branch_angle_spread * Real.pi / 180 := by
  have hu := (SimRng.popNp_bounds rng1 hrng).1
  have hself : Real.arccos (s.orientation.dot s.orientation) ≤
      s.options.branch_angle_spread * Real.pi / 180 := by
    rw [MPoint.dot_self_of_unit s.orientation hunit, Real.arccos_one]
    positivity
  set θdeg := -s.options.branch_angle_spread +
    rng1.popNp.1 * (s.options.branch_angle_spread - -s.options.branch_angle_spread)
    with hθdeg
  have hθ : |θdeg| ≤ s.options.branch_angle_spread := by
    rw [abs_le]
    constructor <;> nlinarith [hu.1, hu.2, hspread]
  have hrotdir : s.branchDirection θdeg =
      s.orientation.rotated_around ⟨0, 0, 1⟩ θdeg := by
    unfold Section.branchDirection
    rw [if_neg (by rw [hblend]; simp), if_neg (by rw [hbias]; simp)]
  have hrotnorm : (s.orientation.rotated_around ⟨0, 0, 1⟩ θdeg).norm = 1 := by
    rw [MPoint.rotated_around_z_norm, hunit]
  have hrot : Real.arccos (s.orientation.dot
      (s.orientation.rotated_around ⟨0, 0, 1⟩ θdeg)) ≤
      s.options.branch_angle_spread * Real.pi / 180 :=
    MPoint.rotated_around_z_cone s.orientation θdeg _ hunit hθ
  unfold Section.branchResult
  simp only [npUniform, npRand]
  rw [← hθdeg, hrotdir]
  by_cases hkeep : rng1.popNp.2.popNp.1 < s.options.leading_branch_prob
  · rw [if_pos hkeep, if_pos hkeep]
    refine ⟨?_, hself⟩
    show Real.arccos (s.orientation.dot
      ((s.orientation.rotated_around ⟨0, 0, 1⟩ θdeg).normalise)) ≤
      s.options.branch_angle_spread * Real.pi / 180
    rw [MPoint.normalise_of_norm_one _ hrotnorm]
    exact hrot
  · rw [if_neg hkeep, if_neg hkeep]
    refine ⟨?_, hrot⟩
    show Real.arccos (s.orientation.dot (s.orientation.normalise)) ≤
      s.options.branch_angle_spread * Real.pi / 180
    rw [MPoint.normalise_of_norm_one _ hunit]
    exact hself

/-- C8: with curvature_branch_bias 0 and direction_memory_blend 0, for
every outcome of the random draws (unit-interval numpy draws), whenever
maybe_branch succeeds, both the returned child's orientation and the
parent's post-call orientation — in particular whichever of them
carries the rotated candidate direction — lie within the cone of
half-angle branch_angle_spread degrees around the parent's pre-branch
unit orientation. -/
theorem c8_branch_cone (s : Section) (ctx : List Section) (chance : ℝ)
    (tc nid : ℕ) (rng : SimRng) (c s2 : Section) (rng2 : SimRng)
    (hbias : s.options.curvature_branch_bias = 0)
    (hblend : s.options.direction_memory_blend = 0)
    (hspread : 0 ≤ s.options.branch_angle_spread)
    (hunit : s.orientation.norm = 1)
    (hrng : ∀ u ∈ rng.np, 0 ≤ u ∧ u < 1)
    (h : s.maybe_branch ctx chance tc nid rng = (some c, s2, rng2)) :
    Real.arccos (s.orientation.dot c.orientation) ≤
        s.options.branch_angle_spread * Real.pi / 180 ∧
      Real.arccos (s.orientation.dot s2.orientation) ≤
        s.options.branch_angle_spread * Real.pi / 180 := by
  have hrng1 := (SimRng.popNp_bounds rng hrng).2
  simp only [Section.maybe_branch] at h
  split_ifs at h
  · simp at h
  · simp at h
  · simp at h
  · simp at h
  · simp at h
  · rw [Prod.mk.injEq, Prod.mk.injEq] at h
    obtain ⟨h1, h2, h3⟩ := h
    have hc : c = (s.branchResult nid (npRand rng).2).1 := (Option.some.inj h1).symm
    have hs2 : s2 = (s.branchResult nid (npRand rng).2).2.1 := h2.symm
    subst hc hs2
    exact branchResult_cone s nid (npRand rng).2 hbias hblend hspread hunit hrng1
  · simp at h

/-- C8 witness: the cone bound instantiated at a concrete successful
branching call — spread 90 degrees, draws (0, 1/2, 0), so the chance
gate passes, the drawn angle is 0 and the parent keeps the rotated
direction. -/
theorem c8_witness :
    Real.arccos (sec0.orientation.dot cW.orientation) ≤
        sec0.options.branch_angle_spread * Real.pi / 180 ∧
      Real.arccos (sec0.orientation.dot sW.orientation) ≤
        sec0.options.branch_angle_spread * Real.pi / 180 :=
  c8_branch_cone sec0 [] (1/2) 0 7 ⟨[0, 1/2, 0], []⟩ cW sW ⟨[], []⟩
    rfl rfl
    (by show (0:ℝ) ≤ 90; norm_num)
    MPoint.norm_unit_z
    (by
      intro u hu
      simp only [List.mem_cons, List.not_mem_nil, or_false] at hu
      rcases hu with rfl | rfl | rfl <;> norm_num)
    (by
      simp only [Section.maybe_branch]
      rw [if_neg (by simp [sec0]),
        if_neg (by show ¬ ((4:ℕ) ≤ 0); norm_num),
        if_neg (by show ¬ ((0:ℝ) < 0 ∨ (0:ℝ) < 0); norm_num),
        if_neg (by show ¬ ((100:ℝ) < 0); norm_num),
        if_neg (by simp [Section.fieldGateBlocks, sec0])]
      simp only [npRand, SimRng.popNp]
      rw [if_pos (by norm_num)]
      unfold Section.branchResult
      simp only [npUniform, npRand, SimRng.popNp]
      rw [if_neg (by show ¬ ((0:ℝ) < 0); norm_num),
        if_neg (by show ¬ ((0:ℝ) < 0); norm_num)]
      rw [show sec0.branchColor ⟨[], []⟩ = (sec0.color, ⟨[], []⟩) from
        by
          unfold Section.branchColor
          rw [if_neg (show ¬ (sec0.options.rgb_mutations_enabled = true) from
            Bool.false_ne_true)]]
      rfl)

/-! Self-exclusion in the orientator (claim C5). -/

theorem MPoint.norm_yonly (a : ℝ) : (⟨0, a, 0⟩ : MPoint).norm = |a| := by
  unfold MPoint.norm
  rw [show (⟨0, a, 0⟩ : MPoint).x ^ 2 + (⟨0, a, 0⟩ : MPoint).y ^ 2 +
    (⟨0, a, 0⟩ : MPoint).z ^ 2 = a ^ 2 by ring, Real.sqrt_sq_eq_abs]

theorem MPoint.norm_zonly (a : ℝ) : (⟨0, 0, a⟩ : MPoint).norm = |a| := by
  unfold MPoint.norm
  rw [show (⟨0, 0, a⟩ : MPoint).x ^ 2 + (⟨0, 0, a⟩ : MPoint).y ^ 2 +
    (⟨0, 0, a⟩ : MPoint).z ^ 2 = a ^ 2 by ring, Real.sqrt_sq_eq_abs]

/-- A section's own line-source gradient vanishes at the section's own
end point: the closest point of the segment to its end is the end
itself, so the gradient falls into the zero branch. -/
theorem SectSource.gradient_at_end (src : SectSource) (sec : Section) :
    src.gradient sec sec.end_ = ⟨0, 0, 0⟩ := by
  have hdotring : ∀ v : MPoint, v.dot v = v.x ^ 2 + v.y ^ 2 + v.z ^ 2 := by
    intro v
    unfold MPoint.dot
    ring
  have hnorm0 : ∀ v : MPoint, v.dot v = 0 → v.norm = 0 := by
    intro v hv
    unfold MPoint.norm
    rw [← hdotring v, hv, Real.sqrt_zero]
  have hdir : (sec.end_.subtract (SectSource.closest_point sec sec.end_)).norm = 0 := by
    simp only [SectSource.closest_point]
    split_ifs with hden
    · have h1 : sec.end_.subtract
          (sec.start.add ((sec.end_.subtract sec.start).scale 0)) =
          sec.end_.subtract sec.start := by
        ext <;> simp [MPoint.subtract, MPoint.add, MPoint.scale]
      rw [h1]
      exact hnorm0 _ hden
    · have ht : min (max (((sec.end_.subtract sec.start).dot
          (sec.end_.subtract sec.start)) /
          ((sec.end_.subtract sec.start).dot (sec.end_.subtract sec.start))) 0) 1 =
          (1 : ℝ) := by
        rw [div_self hden]
        norm_num
      rw [ht]
      have h1 : sec.end_.subtract
          (sec.start.add ((sec.end_.subtract sec.start).scale 1)) =
          (⟨0, 0, 0⟩ : MPoint) := by
        ext <;> simp [MPoint.subtract, MPoint.add, MPoint.scale]
      rw [h1]
      simp [MPoint.norm]
  simp only [SectSource.gradient]
  rw [if_pos hdir]

/-- The gradient accumulator of compute_field is unchanged by excluding
the queried section's own id: every source wrapping that section
contributes a zero gradient at the section's end, and every other
source is treated identically by the two exclusion lists. -/
theorem fieldStep_snd_excl_self (agg : FieldAggregator) (ctx : List Section)
    (sec : Section) (hfind : findSection ctx sec.id = some sec) :
    ∀ (srcs : List SectSource) (f1 f2 : ℝ) (g : MPoint),
      (srcs.foldl (FieldAggregator.fieldStep agg ctx sec.end_ []) (f1, g)).2 =
        (srcs.foldl (FieldAggregator.fieldStep agg ctx sec.end_ [sec.id]) (f2, g)).2 := by
  intro srcs
  induction srcs with
  | nil =>
    intro f1 f2 g
    rfl
  | cons src rest ih =>
    intro f1 f2 g
    simp only [List.foldl_cons]
    by_cases hid : src.sect_id = sec.id
    · have hL : (FieldAggregator.fieldStep agg ctx sec.end_ [] (f1, g) src).2 = g := by
        unfold FieldAggregator.fieldStep
        rw [if_neg (List.not_mem_nil src.sect_id), hid, hfind]
        dsimp only
        split_ifs
        · rfl
        · show g.add (src.gradient sec sec.end_) = g
          rw [SectSource.gradient_at_end]
          ext <;> simp [MPoint.add]
      have hR : (FieldAggregator.fieldStep agg ctx sec.end_ [sec.id] (f2, g) src).2 = g := by
        unfold FieldAggregator.fieldStep
        rw [if_pos (show src.sect_id ∈ [sec.id] by simp [hid])]
      rcases hLpair : FieldAggregator.fieldStep agg ctx sec.end_ [] (f1, g) src with ⟨F1, G1⟩
      rcases hRpair : FieldAggregator.fieldStep agg ctx sec.end_ [sec.id] (f2, g) src with ⟨F2, G2⟩
      have hG1 : G1 = g := by rw [← hL, hLpair]
      have hG2 : G2 = g := by rw [← hR, hRpair]
      rw [hG1, hG2]
      exact ih F1 F2 g
    · have hLR : (FieldAggregator.fieldStep agg ctx sec.end_ [] (f1, g) src).2 =
          (FieldAggregator.fieldStep agg ctx sec.end_ [sec.id] (f2, g) src).2 := by
        unfold FieldAggregator.fieldStep
        rw [if_neg (List.not_mem_nil src.sect_id),
          if_neg (show src.sect_id ∉ [sec.id] by simp [hid])]
        cases hf : findSection ctx src.sect_id with
        | none => rfl
        | some s2 =>
          simp only [hf]
          split_ifs <;> rfl
      rcases hLpair : FieldAggregator.fieldStep agg ctx sec.end_ [] (f1, g) src with ⟨F1, G1⟩
      rcases hRpair : FieldAggregator.fieldStep agg ctx sec.end_ [sec.id] (f2, g) src with ⟨F2, G2⟩
      have hG : G1 = G2 := by
        rw [hLpair, hRpair] at hLR
        exact hLR
      subst hG
      exact ih F1 F2 G1

/-- The normalised aggregate gradient at a section's end is unchanged
by excluding that section's own source. -/
theorem compute_field_grad_selfexcl (agg : FieldAggregator) (ctx : List Section)
    (sec : Section) (hfind : findSection ctx sec.id = some sec) :
    (agg.compute_field ctx sec.end_ []).2 =
      (agg.compute_field ctx sec.end_ [sec.id]).2 := by
  simp only [FieldAggregator.compute_field]
  rw [fieldStep_snd_excl_self agg ctx sec hfind agg.sources 0 0 ⟨0, 0, 0⟩]

/-- C5 amended: Orientator.compute passes no exclusion list, but a
section's own line-source gradient at the section's end is zero, so the
gradient-driven autotropism and alignment terms already coincide with
the self-excluded computation; whenever field_curvature_influence is
zero (the curvature term is the only part reading the scalar field,
which the own source does change), compute therefore equals the
computation with the section's own source excluded from every field
aggregation. -/
theorem c5_amended (o : Orientator) (ctx : List Section) (sec : Section)
    (rng : SimRng)
    (hinf : o.options.field_curvature_influence = 0)
    (hfind : findSection ctx sec.id = some sec) :
    Orientator.compute o ctx sec rng = Orientator.computeSelfExcluded o ctx sec rng := by
  simp only [Orientator.compute, Orientator.computeSelfExcluded, Orientator.computeWith]
  suffices h : Orientator.autotropismStage o ctx sec sec.orientation [] =
      Orientator.autotropismStage o ctx sec sec.orientation [sec.id] by
    rw [h]
  unfold Orientator.autotropismStage
  cases hagg : o.aggregator with
  | none => rfl
  | some agg =>
    simp only [hagg]
    rw [compute_field_grad_selfexcl agg ctx sec hfind]
    rw [if_neg (show ¬ (0 < o.options.field_curvature_influence) by
        rw [hinf]; exact lt_irrefl 0),
      if_neg (show ¬ (0 < o.options.field_curvature_influence) by
        rw [hinf]; exact lt_irrefl 0)]

/-- C5 witness: the amended theorem applied to the concrete scene whose
aggregator holds the section's own source, with the curvature influence
off. -/
theorem c5_witness :
    Orientator.compute o5z ctx5 secA ⟨[], []⟩ =
      Orientator.computeSelfExcluded o5z ctx5 secA ⟨[], []⟩ :=
  c5_amended o5z ctx5 secA ⟨[], []⟩ rfl rfl

/-! Evaluation of the C5 counterexample scene. -/

theorem closest_secA (p : MPoint) : SectSource.closest_point secA p = ⟨0, 0, 0⟩ := by
  simp only [SectSource.closest_point]
  rw [show secA.end_ = (⟨0, 0, 0⟩ : MPoint) from rfl,
    show secA.start = (⟨0, 0, 0⟩ : MPoint) from rfl]
  rw [if_pos (show ((⟨0, 0, 0⟩ : MPoint).subtract ⟨0, 0, 0⟩).dot
      ((⟨0, 0, 0⟩ : MPoint).subtract ⟨0, 0, 0⟩) = 0 from by
    simp [MPoint.subtract, MPoint.dot])]
  ext <;> simp [MPoint.subtract, MPoint.add, MPoint.scale]

theorem closest_secB (p : MPoint) : SectSource.closest_point secB p = ⟨2, 0, 0⟩ := by
  simp only [SectSource.closest_point]
  rw [show secB.end_ = (⟨2, 0, 0⟩ : MPoint) from rfl,
    show secB.start = (⟨2, 0, 0⟩ : MPoint) from rfl]
  rw [if_pos (show ((⟨2, 0, 0⟩ : MPoint).subtract ⟨2, 0, 0⟩).dot
      ((⟨2, 0, 0⟩ : MPoint).subtract ⟨2, 0, 0⟩) = 0 from by
    simp [MPoint.subtract, MPoint.dot])]
  ext <;> simp [MPoint.subtract, MPoint.add, MPoint.scale]

theorem ff0_eval (p : MPoint) : SectSource.find_field ⟨0, 1, 1⟩ secA p =
    1 / (1 + (p.subtract ⟨0, 0, 0⟩).norm) := by
  unfold SectSource.find_field
  rw [closest_secA]
  unfold MPoint.distance_to
  norm_num

theorem grad_srcB_center :
    SectSource.gradient ⟨1, 1, 1⟩ secB ⟨0, 0, 0⟩ = ⟨-1, 0, 0⟩ := by
  simp only [SectSource.gradient]
  rw [closest_secB]
  rw [show (⟨0, 0, 0⟩ : MPoint).subtract ⟨2, 0, 0⟩ = ⟨-2, 0, 0⟩ from by
    ext <;> simp [MPoint.subtract]]
  rw [show ((⟨-2, 0, 0⟩ : MPoint)) = ⟨(-2 : ℝ), 0, 0⟩ from rfl, MPoint.norm_xonly]
  rw [if_neg (show ¬ |(-2 : ℝ)| = 0 from by norm_num)]
  rw [show (⟨(-2 : ℝ), 0, 0⟩ : MPoint).scale (1 * 1 / (1 + 1 * |(-2 : ℝ)|) ^ 2) =
      ⟨(-2 : ℝ) / 9, 0, 0⟩ from by
    ext <;> simp [MPoint.scale] <;> norm_num]
  rw [MPoint.normalise_xonly_neg ((-2 : ℝ) / 9) (by norm_num)]

/-- One inclusion step of the compute_field fold in the C5 scene. -/
theorem fieldStep5_eval (excl : List ℕ) (src : SectSource) (s2 : Section)
    (acc : ℝ × MPoint) (p : MPoint)
    (hmem : src.sect_id ∉ excl) (hf : findSection ctx5 src.sect_id = some s2) :
    FieldAggregator.fieldStep agg5 ctx5 p excl acc src =
      (acc.1 + src.find_field s2 p, acc.2.add (src.gradient s2 p)) := by
  unfold FieldAggregator.fieldStep
  rw [if_neg hmem, hf]
  dsimp only
  rw [if_neg (show ¬ agg5.culls p s2 from by
    unfold FieldAggregator.culls
    rw [show agg5.options = some opts5 from rfl]
    dsimp only
    intro hc
    have : (0 : ℝ) < 0 := by
      have h0 : opts5.neighbour_radius = 0 := rfl
      rw [h0] at hc
      exact hc.1
    exact lt_irrefl 0 this)]

/-- One exclusion step of the compute_field fold in the C5 scene. -/
theorem fieldStep5_skip (excl : List ℕ) (src : SectSource) (acc : ℝ × MPoint)
    (p : MPoint) (hmem : src.sect_id ∈ excl) :
    FieldAggregator.fieldStep agg5 ctx5 p excl acc src = acc := by
  unfold FieldAggregator.fieldStep
  rw [if_pos hmem]

/-- The scalar field of the C5 scene with no exclusion: both sources
contribute. -/
theorem cf5_incl (p : MPoint) : (agg5.compute_field ctx5 p []).1 =
    SectSource.find_field ⟨0, 1, 1⟩ secA p + SectSource.find_field ⟨1, 1, 1⟩ secB p := by
  simp only [FieldAggregator.compute_field]
  rw [show agg5.sources = [⟨0, 1, 1⟩, ⟨1, 1, 1⟩] from rfl]
  simp only [List.foldl_cons, List.foldl_nil]
  rw [fieldStep5_eval [] ⟨0, 1, 1⟩ secA _ p (List.not_mem_nil 0) rfl,
    fieldStep5_eval [] ⟨1, 1, 1⟩ secB _ p (List.not_mem_nil 1) rfl]
  norm_num

/-- The scalar field of the C5 scene with the own source excluded: only
secB contributes. -/
theorem cf5_excl (p : MPoint) : (agg5.compute_field ctx5 p [secA.id]).1 =
    SectSource.find_field ⟨1, 1, 1⟩ secB p := by
  simp only [FieldAggregator.compute_field]
  rw [show agg5.sources = [⟨0, 1, 1⟩, ⟨1, 1, 1⟩] from rfl]
  simp only [List.foldl_cons, List.foldl_nil]
  rw [fieldStep5_skip [secA.id] ⟨0, 1, 1⟩ _ p (by
      rw [show secA.id = 0 from rfl]
      exact List.mem_singleton.mpr rfl),
    fieldStep5_eval [secA.id] ⟨1, 1, 1⟩ secB _ p (by
      rw [show secA.id = 0 from rfl]
      simp) rfl]
  norm_num

/-- The aggregate gradient at the origin in the C5 scene, without
exclusion: the own source contributes zero, secB contributes the unit
vector toward the origin. -/
theorem cfgrad_incl : (agg5.compute_field ctx5 secA.end_ []).2 = ⟨-1, 0, 0⟩ := by
  simp only [FieldAggregator.compute_field]
  rw [show agg5.sources = [⟨0, 1, 1⟩, ⟨1, 1, 1⟩] from rfl]
  simp only [List.foldl_cons, List.foldl_nil]
  rw [fieldStep5_eval [] ⟨0, 1, 1⟩ secA _ secA.end_ (List.not_mem_nil 0) rfl,
    fieldStep5_eval [] ⟨1, 1, 1⟩ secB _ secA.end_ (List.not_mem_nil 1) rfl]
  rw [show SectSource.gradient ⟨0, 1, 1⟩ secA secA.end_ = ⟨0, 0, 0⟩ from
    SectSource.gradient_at_end _ _]
  rw [show SectSource.gradient ⟨1, 1, 1⟩ secB secA.end_ = ⟨-1, 0, 0⟩ from
    grad_srcB_center]
  rw [show ((⟨0, 0, 0⟩ : MPoint).add ⟨0, 0, 0⟩).add ⟨-1, 0, 0⟩ =
      (⟨(-1 : ℝ), 0, 0⟩ : MPoint) from by ext <;> simp [MPoint.add]]
  exact MPoint.normalise_xonly_neg (-1) (by norm_num)

/-- The aggregate gradient at the origin in the C5 scene with the own
source excluded is the same vector. -/
theorem cfgrad_excl : (agg5.compute_field ctx5 secA.end_ [secA.id]).2 = ⟨-1, 0, 0⟩ := by
  rw [← compute_field_grad_selfexcl agg5 ctx5 secA rfl]
  exact cfgrad_incl

/-- The C5 orientator pipeline evaluated symbolically: the returned
orientation is the normalisation of (−1 − curvature, 0, 1), with the
curvature computed under the given exclusion list. -/
theorem compute5_eval (excl : List ℕ)
    (hg : (agg5.compute_field ctx5 secA.end_ excl).2 = ⟨-1, 0, 0⟩) :
    (Orientator.computeWith o5 ctx5 secA ⟨[], []⟩ excl).1 =
      (⟨-1 - agg5.curvatureWith ctx5 secA.end_ 1 excl, 0, 1⟩ : MPoint).normalise := by
  simp only [Orientator.computeWith]
  have hauto : Orientator.autotropismStage o5 ctx5 secA secA.orientation excl =
      ⟨-1 - agg5.curvatureWith ctx5 secA.end_ 1 excl, 0, 1⟩ := by
    unfold Orientator.autotropismStage
    rw [show o5.aggregator = some agg5 from rfl]
    dsimp only
    rw [hg]
    rw [show (⟨-1, 0, 0⟩ : MPoint).scale o5.options.autotropism =
        ⟨(-1 : ℝ), 0, 0⟩ from by
      rw [show o5.options.autotropism = 1 from rfl]
      ext <;> simp [MPoint.scale]]
    rw [if_neg (show ¬ (0 < o5.options.field_alignment_boost) from by
      rw [show o5.options.field_alignment_boost = 0 from rfl]
      exact lt_irrefl 0)]
    rw [if_pos (show (0 : ℝ) < o5.options.field_curvature_influence from by
      rw [show o5.options.field_curvature_influence = 1 from rfl]
      norm_num)]
    rw [MPoint.normalise_xonly_neg (-1) (by norm_num)]
    rw [show o5.options.field_curvature_influence = 1 from rfl]
    rw [show secA.orientation = (⟨0, 0, 1⟩ : MPoint) from rfl]
    ext <;> simp [MPoint.add, MPoint.scale] <;> ring
  rw [hauto]
  rw [show Orientator.densityStage o5 secA
      (⟨-1 - agg5.curvatureWith ctx5 secA.end_ 1 excl, 0, 1⟩ : MPoint) =
      ⟨-1 - agg5.curvatureWith ctx5 secA.end_ 1 excl, 0, 1⟩ from by
    unfold Orientator.densityStage
    rw [if_neg (show ¬ (o5.options.die_if_too_dense = true) from Bool.false_ne_true)]]
  rw [show Orientator.gravitropismStage o5.options secA.end_.z
      (⟨-1 - agg5.curvatureWith ctx5 secA.end_ 1 excl, 0, 1⟩ : MPoint) =
      ⟨-1 - agg5.curvatureWith ctx5 secA.end_ 1 excl, 0, 1⟩ from by
    unfold Orientator.gravitropismStage
    rw [if_neg (show ¬ (0 < o5.options.gravitropism) from by
      rw [show o5.options.gravitropism = (0 : ℝ) from rfl]
      exact lt_irrefl 0)]]
  rw [show Orientator.nutrientStage o5 secA.end_
      (⟨-1 - agg5.curvatureWith ctx5 secA.end_ 1 excl, 0, 1⟩ : MPoint) =
      ⟨-1 - agg5.curvatureWith ctx5 secA.end_ 1 excl, 0, 1⟩ from by
    unfold Orientator.nutrientStage
    rw [show o5.nutrient_sources = ([] : List MPoint) from rfl]
    rfl]
  rw [show Orientator.anisotropyStage o5 secA.end_
      (⟨-1 - agg5.curvatureWith ctx5 secA.end_ 1 excl, 0, 1⟩ : MPoint) =
      ⟨-1 - agg5.curvatureWith ctx5 secA.end_ 1 excl, 0, 1⟩ from by
    unfold Orientator.anisotropyStage
    rw [if_neg (show ¬ (o5.options.anisotropy_enabled = true) from Bool.false_ne_true)]]
  rw [show Orientator.randomWalkStage o5
      (⟨-1 - agg5.curvatureWith ctx5 secA.end_ 1 excl, 0, 1⟩ : MPoint) ⟨[], []⟩ =
      ((⟨-1 - agg5.curvatureWith ctx5 secA.end_ 1 excl, 0, 1⟩ : MPoint), ⟨[], []⟩) from by
    unfold Orientator.randomWalkStage
    rw [if_neg (show ¬ (0 < o5.options.random_walk) from by
      rw [show o5.options.random_walk = (0 : ℝ) from rfl]
      exact lt_irrefl 0)]]
  rw [show Orientator.memoryStage o5 secA.orientation
      (⟨-1 - agg5.curvatureWith ctx5 secA.end_ 1 excl, 0, 1⟩ : MPoint) =
      ⟨-1 - agg5.curvatureWith ctx5 secA.end_ 1 excl, 0, 1⟩ from by
    unfold Orientator.memoryStage
    rw [if_neg (show ¬ (0 < o5.options.direction_memory_blend) from by
      rw [show o5.options.direction_memory_blend = (0 : ℝ) from rfl]
      exact lt_irrefl 0)]]

/-- The curvature of the C5 scene with no exclusion differs from the
self-excluded curvature by exactly the own source's finite-difference
Laplacian, which is −3: the secB terms cancel. -/
theorem curvature5_diff :
    agg5.curvatureWith ctx5 secA.end_ 1 [] =
      agg5.curvatureWith ctx5 secA.end_ 1 [secA.id] - 3 := by
  simp only [FieldAggregator.curvatureWith]
  rw [show secA.end_ = (⟨0, 0, 0⟩ : MPoint) from rfl]
  simp only [List.foldl_cons, List.foldl_nil, MPoint.add]
  norm_num
  simp only [cf5_incl, cf5_excl, ff0_eval, MPoint.subtract]
  norm_num
  simp only [MPoint.norm_xonly, MPoint.norm_yonly, MPoint.norm_zonly]
  norm_num
  ring

/-- Normalisation is injective on vectors of the form (a, 0, 1). -/
theorem normalise_xz_inj (a b : ℝ)
    (h : (⟨a, 0, 1⟩ : MPoint).normalise = (⟨b, 0, 1⟩ : MPoint).normalise) : a = b := by
  have hna : (⟨a, 0, 1⟩ : MPoint).norm ≠ 0 := by
    unfold MPoint.norm
    have : (0 : ℝ) < Real.sqrt ((⟨a, 0, 1⟩ : MPoint).x ^ 2 + (⟨a, 0, 1⟩ : MPoint).y ^ 2 +
        (⟨a, 0, 1⟩ : MPoint).z ^ 2) := Real.sqrt_pos.mpr (by positivity)
    exact ne_of_gt this
  have hnb : (⟨b, 0, 1⟩ : MPoint).norm ≠ 0 := by
    unfold MPoint.norm
    have : (0 : ℝ) < Real.sqrt ((⟨b, 0, 1⟩ : MPoint).x ^ 2 + (⟨b, 0, 1⟩ : MPoint).y ^ 2 +
        (⟨b, 0, 1⟩ : MPoint).z ^ 2) := Real.sqrt_pos.mpr (by positivity)
    exact ne_of_gt this
  unfold MPoint.normalise at h
  rw [if_neg hna, if_neg hnb] at h
  have hz := congrArg MPoint.z h
  simp [MPoint.scale] at hz
  have hxc := congrArg MPoint.x h
  simp [MPoint.scale] at hxc
  rw [hz] at hxc
  exact mul_right_cancel₀ (inv_ne_zero hnb) hxc

/-- C5 counterexample: in the concrete two-source scene with the
curvature influence enabled, Orientator.compute (which passes no
exclusion list) returns a different orientation than the computation
with the section's own source excluded: the own source shifts the
finite-difference curvature by −3. -/
theorem c5_counterexample :
    (Orientator.compute o5 ctx5 secA ⟨[], []⟩).1 ≠
      (Orientator.computeSelfExcluded o5 ctx5 secA ⟨[], []⟩).1 := by
  intro hcontr
  unfold Orientator.compute Orientator.computeSelfExcluded at hcontr
  rw [compute5_eval [] cfgrad_incl, compute5_eval [secA.id] cfgrad_excl] at hcontr
  have heq := normalise_xz_inj _ _ hcontr
  rw [curvature5_diff] at heq
  linarith

/-- C4 witness: the scenario evaluated at the concrete configuration. -/
theorem c4_witness :
    ((Section.create 0 ⟨0, 0, 0⟩ ⟨0, 0, 1⟩ opts0 none none).grow 1 1).end_ =
        (⟨0, 0, 1⟩ : MPoint) ∧
      ((Section.create 0 ⟨0, 0, 0⟩ ⟨0, 0, 1⟩ opts0 none none).grow 1 1).length = 1 :=
  c4_grow_scenario opts0 rfl rfl

end Pycelium
